import Mathlib

/-!
Verification of the core of the perfetto `traced_probes` producer daemon:
the resource watchdog (`src/base/watchdog_posix.cc`) and the producer
lifecycle / registry / flush / metadata-broadcast orchestrator
(`src/traced/probes/probes_producer.cc`).

The C++ code is shallowly embedded: `std::map` / `std::unordered_map` /
`std::unordered_multimap` become association lists over `Nat` keys,
machine integers become `Nat` with explicit `% 2^w` where the C++ can
wrap, `double` arithmetic in the CPU check becomes exact `ℚ` arithmetic,
and the fatal `PERFETTO_CHECK` macro becomes an `Option` result
(`none` = the check tripped and the process aborted).
-/

/-- Number of representable values of a `uint64_t`. -/
def U64 : Nat := 2 ^ 64

/-- Number of representable values of a `uint32_t`. -/
def U32 : Nat := 2 ^ 32

/-- Wrap-around subtraction of `uint64_t` values (`a - b` in C++); for
`a b < U64` this is the two's-complement difference modulo `2^64`. -/
def sub64 (a b : Nat) : Nat := (U64 + a % U64 - b % U64) % U64

/-- Association-list lookup keyed on `Nat`, mirroring `map::find`:
returns the first binding of the key. -/
def alookup {β : Type} : List (Nat × β) → Nat → Option β
  | [], _ => none
  | (k, v) :: t, a => if k = a then some v else alookup t a

/-- Association-list write, mirroring `map::operator[] =`: replaces the
first binding of the key, or appends a new binding. -/
def aset {β : Type} : List (Nat × β) → Nat → β → List (Nat × β)
  | [], a, b => [(a, b)]
  | (k, v) :: t, a, b => if k = a then (a, b) :: t else (k, v) :: aset t a b

/-- Association-list key removal, mirroring `map::erase(key)` on a map
with unique keys: removes the first binding of the key. -/
def aerase {β : Type} : List (Nat × β) → Nat → List (Nat × β)
  | [], _ => []
  | (k, v) :: t, a => if k = a then t else (k, v) :: aerase t a

/-- A map is well formed when its keys are pairwise distinct. -/
def keysNodup {β : Type} (m : List (Nat × β)) : Prop := (m.map Prod.fst).Nodup

/-- Concatenation map over a list; used to state how event batches of
sub-loops compose. -/
def cmap {α β : Type} (f : α → List β) : List α → List β
  | [] => []
  | x :: t => f x ++ cmap f t

/-! ## Watchdog (`src/base/watchdog_posix.cc`)

The `WindowedInterval` ring buffer and the `Watchdog` threshold checks.
The `buffer_` heap array becomes a `List Nat` whose length equals
`size_` for every ring built through `Reset`. -/

/-- Ring buffer of `uint64_t` samples (`Watchdog::WindowedInterval`).
The `filled` flag's initial value of `false` is modelled from the spec
("`filled` becomes true on first wrap and stays true"); its declaration
lives in the header, which is not part of the sources. -/
structure WindowedInterval where
  buffer : List Nat
  position : Nat
  size : Nat
  filled : Bool
deriving DecidableEq, Repr

/-- `WindowedInterval::Push`. Writes at the current position, advances
circularly, latches `filled` on the first wrap and returns it. The C++
`%` by a zero `size_` would be undefined; pushes only happen on rings
configured with a non-zero limit, whose size is at least 2. -/
def WindowedInterval.push (w : WindowedInterval) (sample : Nat) :
    WindowedInterval × Bool :=
  let buffer := w.buffer.set w.position sample
  let position := (w.position + 1) % w.size
  let filled := w.filled || decide (position = 0)
  ({ buffer := buffer, position := position, size := w.size, filled := filled },
   filled)

/-- Sum of the buffer as accumulated by `MeanForArray`'s `uint64_t`
running total (each addition wraps modulo `2^64`). -/
def sum64 (l : List Nat) : Nat := l.foldl (fun acc x => (acc + x) % U64) 0

/-- `MeanForArray` / `WindowedInterval::Mean`: the `uint64_t` total is
divided by `size` with integer division *before* the implicit
conversion to `double`, so the returned value is the floor quotient. -/
def WindowedInterval.meanNat (w : WindowedInterval) : Nat :=
  sum64 w.buffer / w.size

/-- The `double` returned by `Mean()`, as an exact rational. Every value
reached through the public limit setters stays far below `2^53`, where
the `uint64_t → double` conversion is exact. -/
def WindowedInterval.meanQ (w : WindowedInterval) : ℚ := (w.meanNat : ℚ)

/-- Modelled from the spec: `newest_when_full()` is the most recently
pushed sample once the ring is full; the accessor's body lives in the
header, which is not part of the sources. The slot before `position`
(circularly) holds the newest sample. -/
def WindowedInterval.newestWhenFull (w : WindowedInterval) : Nat :=
  w.buffer.getD ((w.position + w.size - 1) % w.size) 0

/-- Modelled from the spec: `oldest_when_full()` is the oldest sample in
a full ring; the accessor's body lives in the header, which is not part
of the sources. The slot at `position` is the next to be overwritten,
hence the oldest. -/
def WindowedInterval.oldestWhenFull (w : WindowedInterval) : Nat :=
  w.buffer.getD w.position 0

/-- `WindowedInterval::Reset`. Reallocates a zeroed buffer of the new
size and rewinds the position. Note that the source does *not* clear the
`filled_` flag. -/
def WindowedInterval.reset (w : WindowedInterval) (new_size : Nat) :
    WindowedInterval :=
  { buffer := List.replicate new_size 0, position := 0, size := new_size,
    filled := w.filled }

/-- A ring as first allocated: zeroed, position 0, `filled` clear. -/
def freshRing (c : Nat) : WindowedInterval :=
  { buffer := List.replicate c 0, position := 0, size := c, filled := false }

/-- Push a whole list of samples in order. -/
def pushList (w : WindowedInterval) (xs : List Nat) : WindowedInterval :=
  xs.foldl (fun s x => (s.push x).1) w

/-- State of `base::Watchdog` relevant to the limit checks. -/
structure Watchdog where
  polling_interval_ms : Nat
  memory_window_bytes : WindowedInterval
  cpu_window_time_ticks : WindowedInterval
  memory_limit_bytes : Nat
  cpu_limit_percentage : Nat
deriving DecidableEq, Repr

/-- `kDefaultPollingInterval = 30 * 1000`. -/
def kDefaultPollingInterval : Nat := 30 * 1000

/-- `base::kPageSize` (4 KiB on the targeted kernels). -/
def kPageSize : Nat := 4096

/-- A watchdog as constructed by `Watchdog::Watchdog(polling_interval_ms)`:
no limits configured, both rings of capacity zero. -/
def mkWatchdog (polling_interval_ms : Nat) : Watchdog :=
  { polling_interval_ms := polling_interval_ms,
    memory_window_bytes := freshRing 0,
    cpu_window_time_ticks := freshRing 0,
    memory_limit_bytes := 0,
    cpu_limit_percentage := 0 }

/-- `IsMultipleOf(number, divisor)`: `number >= divisor && number % divisor == 0`. -/
def isMultipleOf (number divisor : Nat) : Bool :=
  decide (divisor ≤ number) && decide (number % divisor = 0)

/-- `Watchdog::SetMemoryLimit`. `none` models the fatal
`PERFETTO_CHECK(IsMultipleOf(window_ms, polling_interval_ms_) || bytes == 0)`. -/
def Watchdog.setMemoryLimit (w : Watchdog) (bytes window_ms : Nat) :
    Option Watchdog :=
  if isMultipleOf window_ms w.polling_interval_ms || decide (bytes = 0) then
    let size := if bytes = 0 then 0 else window_ms / w.polling_interval_ms + 1
    some { w with memory_window_bytes := w.memory_window_bytes.reset size,
                  memory_limit_bytes := bytes }
  else none

/-- `Watchdog::SetCpuLimit`. The first `none` branch models the fatal
`PERFETTO_CHECK(percentage <= 100)`, the second the window check. -/
def Watchdog.setCpuLimit (w : Watchdog) (percentage window_ms : Nat) :
    Option Watchdog :=
  if percentage ≤ 100 then
    if isMultipleOf window_ms w.polling_interval_ms || decide (percentage = 0) then
      let size := if percentage = 0 then 0
                  else window_ms / w.polling_interval_ms + 1
      some { w with cpu_window_time_ticks := w.cpu_window_time_ticks.reset size,
                    cpu_limit_percentage := percentage }
    else none
  else none

/-- `Watchdog::WindowTimeForRingBuffer`:
`static_cast<uint32_t>(window.size() - 1) * polling_interval_ms_`, with
the `size_t` decrement and the `uint32_t` product wrapping. -/
def Watchdog.windowTimeForRingBuffer (w : Watchdog) (ring : WindowedInterval) :
    Nat :=
  (sub64 ring.size 1 % U32) * w.polling_interval_ms % U32

/-- The `double` percentage computed by `Watchdog::CheckCpu`, as an exact
rational: `difference_ticks / ((window_time_ms / 1000.0) * ticks) * 100`.
For rings configured through `SetCpuLimit` the denominator is non-zero. -/
def cpuPercentageQ (difference_ticks window_time_ms ticks_per_second : Nat) :
    ℚ :=
  (difference_ticks : ℚ) /
    (((window_time_ms : ℚ) / 1000) * (ticks_per_second : ℚ)) * 100

/-- `Watchdog::CheckMemory`. The `Bool` is true when the watchdog raised
`SIGABRT` (`kill(getpid(), SIGABRT)` on `Mean() > memory_limit_bytes_`). -/
def Watchdog.checkMemory (w : Watchdog) (rss_bytes : Nat) : Watchdog × Bool :=
  if w.memory_limit_bytes = 0 then (w, false)
  else
    let p := w.memory_window_bytes.push rss_bytes
    let w2 := { w with memory_window_bytes := p.1 }
    if p.2 then
      if w.memory_limit_bytes < p.1.meanNat then (w2, true) else (w2, false)
    else (w2, false)

/-- `Watchdog::CheckCpu`. The `Bool` is true when the watchdog raised
`SIGABRT` (percentage strictly above `cpu_limit_percentage_`). -/
def Watchdog.checkCpu (w : Watchdog) (ticks_per_second cpu_time : Nat) :
    Watchdog × Bool :=
  if w.cpu_limit_percentage = 0 then (w, false)
  else
    let p := w.cpu_window_time_ticks.push cpu_time
    let w2 := { w with cpu_window_time_ticks := p.1 }
    if p.2 then
      let difference_ticks := sub64 p.1.newestWhenFull p.1.oldestWhenFull
      if (w.cpu_limit_percentage : ℚ) <
          cpuPercentageQ difference_ticks (w.windowTimeForRingBuffer p.1)
            ticks_per_second
      then (w2, true) else (w2, false)
    else (w2, false)

/-- One wake-up of `Watchdog::ThreadMain`'s loop, as observed by the
thread: the quit flag was set, the `read` of `/proc/self/stat` failed,
the `sscanf` matched fewer than 3 fields, or a successful sample. -/
inductive WakeOutcome
  | quitSignal
  | readFail
  | parseFail
  | sample (utime stime : Nat) (rss_pages : Int)
deriving DecidableEq, Repr

/-- How `Watchdog::ThreadMain` left (or remains in) its loop. -/
inductive ThreadResult
  | openFailed
  | returnedQuit (w : Watchdog)
  | returnedReadFail (w : Watchdog)
  | abortedCheck (w : Watchdog)
  | abortedSigabrt (w : Watchdog)
  | polling (w : Watchdog)
deriving DecidableEq, Repr

/-- One iteration of `ThreadMain`'s `for (;;)`. `utime`/`stime` are the
parsed `unsigned long` fields (their sum wraps at `2^64`); `rss_pages`
is the parsed signed `long`, cast to `uint64_t` and scaled by the page
size. A raised `SIGABRT` terminates the process, so it ends the loop. -/
def threadStep (ticks_per_second : Nat) (w : Watchdog) :
    WakeOutcome → ThreadResult
  | .quitSignal => .returnedQuit w
  | .readFail => .returnedReadFail w
  | .parseFail => .abortedCheck w
  | .sample utime stime rss_pages =>
    let cpu_time := (utime % U64 + stime % U64) % U64
    let rss_bytes := ((rss_pages.emod (U64 : Int)).toNat * kPageSize) % U64
    let m := w.checkMemory rss_bytes
    if m.2 then .abortedSigabrt m.1
    else
      let c := m.1.checkCpu ticks_per_second cpu_time
      if c.2 then .abortedSigabrt c.1 else .polling c.1

/-- Fold step for `threadMain`: once the loop has ended (returned or
aborted), later wake-ups change nothing. -/
def threadLoop (ticks_per_second : Nat) (r : ThreadResult)
    (ev : WakeOutcome) : ThreadResult :=
  match r with
  | .polling w => threadStep ticks_per_second w ev
  | other => other

/-- `Watchdog::ThreadMain` run over a finite trace of wake-ups. If the
initial `open("/proc/self/stat")` fails the function returns at once. -/
def threadMain (ticks_per_second : Nat) (statOpenOk : Bool) (w0 : Watchdog)
    (wakes : List WakeOutcome) : ThreadResult :=
  if statOpenOk then wakes.foldl (threadLoop ticks_per_second) (.polling w0)
  else .openFailed

/-- Drive a sequence of RSS samples through `CheckMemory`, latching
whether any step raised `SIGABRT`. -/
def memDrive (w : Watchdog) (xs : List Nat) : Watchdog × Bool :=
  xs.foldl (fun acc x =>
    let r := acc.1.checkMemory x
    (r.1, acc.2 || r.2)) (w, false)

/-- The watchdog of the spec's self-abort scenario: polling interval
1 ms, memory limit 100 bytes over a 4 ms window. -/
def scenarioWatchdog : Watchdog :=
  ((mkWatchdog 1).setMemoryLimit 100 4).getD (mkWatchdog 1)

/-- A watchdog with both limits configured (polling 1 ms, memory limit
100 bytes over 1 ms, CPU limit 50 % over 1 ms), used to exercise the
threshold characterisation on concrete inputs. -/
def bothLimitsWatchdog : Watchdog :=
  (((mkWatchdog 1).setMemoryLimit 100 1).getD (mkWatchdog 1)
      |>.setCpuLimit 50 1).getD (mkWatchdog 1)

/-! ## Producer (`src/traced/probes/probes_producer.cc`) -/

/-- The producer connection state machine's states. -/
inductive ConnState
  | NotStarted
  | NotConnected
  | Connecting
  | Connected
deriving DecidableEq, Repr

/-- `ProbesDataSource::Descriptor`: a process-constant per data-source
kind; grouping of peer instances is by pointer equality, modelled by the
`key`. The descriptor objects themselves live in the individual
data-source translation units, which are not part of the sources; only
distinctness of the keys matters here. -/
structure Descriptor where
  name : String
  key : Nat
deriving DecidableEq, Repr

/-- `FtraceDataSource::descriptor`. -/
def FtraceDescriptor : Descriptor := ⟨"linux.ftrace", 0⟩

/-- `ProcessStatsDataSource::descriptor`. -/
def ProcessStatsDescriptor : Descriptor := ⟨"linux.process_stats", 1⟩

/-- `InodeFileDataSource::descriptor`. -/
def InodeFileDescriptor : Descriptor := ⟨"linux.inode_file_map", 2⟩

/-- `MetatraceDataSource::descriptor`. -/
def MetatraceDescriptor : Descriptor := ⟨"linux.perfetto_metatrace", 3⟩

/-- The fields of `DataSourceConfig` the orchestrator reads. -/
structure DataSourceConfig where
  name : String
  tracing_session_id : Nat
  trace_duration_ms : Nat
deriving DecidableEq, Repr

/-- A live `ProbesDataSource` instance: descriptor reference, session
id, `started` flag, plus the kind-specific observable state used by the
metadata broadcast (the ftrace metadata sets and the process-stats
`on_demand_dumps_enabled` flag). -/
structure ProbesDataSource where
  descriptor : Nat
  tracing_session_id : Nat
  started : Bool
  rename_pids : List Nat
  pids : List Nat
  inode_and_device : List (Nat × Nat)
  on_demand_dumps_enabled : Bool
deriving DecidableEq, Repr

/-- Calls the producer makes on the IPC endpoint and on its data
sources, in program order. -/
inductive Event
  | notifyFlushComplete (flush_id : Nat)
  | notifyDataSourceStarted (id : Nat)
  | notifyDataSourceStopped (id : Nat)
  | dsFlush (id flush_id : Nat)
  | dsStart (id : Nat)
  | onRenamePids (id : Nat) (pids : List Nat)
  | onPids (id : Nat) (pids : List Nat)
  | onInodes (id : Nat) (inodes : List (Nat × Nat))
deriving DecidableEq, Repr

/-- The `ProbesProducer` fields the specified behaviour depends on:
connection state and backoff, the two registry indices
(`data_sources_`, `session_data_sources_`), the pending-flush multimap
and the per-instance fatal-timer map (`watchdogs_`, storing the armed
timeout). -/
structure ProducerState where
  state : ConnState
  connection_backoff_ms : Nat
  data_sources : List (Nat × ProbesDataSource)
  session_data_sources : List (Nat × List (Nat × Nat))
  pending_flushes : List (Nat × Nat)
  watchdogs : List (Nat × Nat)
deriving DecidableEq, Repr

/-- A freshly constructed `ProbesProducer`. The initial backoff value is
immaterial: `ConnectWithRetries` resets it before first use. -/
def initProducerState : ProducerState :=
  { state := .NotStarted, connection_backoff_ms := 100, data_sources := [],
    session_data_sources := [], pending_flushes := [], watchdogs := [] }

/-- `kInitialConnectionBackoffMs`. -/
def kInitialConnectionBackoffMs : Nat := 100

/-- `kMaxConnectionBackoffMs`. -/
def kMaxConnectionBackoffMs : Nat := 30 * 1000

/-- `kFlushTimeoutMs`. -/
def kFlushTimeoutMs : Nat := 1000

/-- `ProbesProducer::IncreaseConnectionBackoff`: double (a `uint32_t`
multiplication) and cap at 30 000 ms. -/
def increaseConnectionBackoff (st : ProducerState) : ProducerState :=
  let b := st.connection_backoff_ms * 2 % U32
  { st with connection_backoff_ms :=
      if kMaxConnectionBackoffMs < b then kMaxConnectionBackoffMs else b }

/-- `ProbesProducer::ResetConnectionBackoff`. -/
def resetConnectionBackoff (st : ProducerState) : ProducerState :=
  { st with connection_backoff_ms := kInitialConnectionBackoffMs }

/-- `ProbesProducer::Connect`: `NotConnected → Connecting` and an IPC
connection attempt. -/
def connect (st : ProducerState) : ProducerState :=
  { st with state := .Connecting }

/-- `ProbesProducer::ConnectWithRetries`: only from `NotStarted`; moves
to `NotConnected`, resets the backoff and issues `Connect`. -/
def connectWithRetries (st : ProducerState) : ProducerState :=
  connect (resetConnectionBackoff { st with state := .NotConnected })

/-- `ProbesProducer::OnConnect`: `Connecting → Connected`, backoff reset. -/
def onConnect (st : ProducerState) : ProducerState :=
  resetConnectionBackoff { st with state := .Connected }

/-- `ProbesProducer::OnDisconnect`. From `Connected` it posts a full
`Restart` (no delayed reconnect, `none`); otherwise it moves to
`NotConnected`, doubles the backoff *first* and then schedules `Connect`
after the increased `connection_backoff_ms_` (the scheduled delay is
returned). -/
def onDisconnect (st : ProducerState) : ProducerState × Option Nat :=
  if st.state = .Connected then (st, none)
  else
    let st1 := increaseConnectionBackoff { st with state := .NotConnected }
    (st1, some st1.connection_backoff_ms)

/-- Delays scheduled by `n` consecutive failed connection attempts: each
cycle is an `OnDisconnect` in `Connecting` followed by the delayed
`Connect` firing. -/
def failureDelays : Nat → ProducerState → List Nat
  | 0, _ => []
  | n + 1, st =>
    let r := onDisconnect st
    r.2.getD 0 :: failureDelays n (connect r.1)

/-- Closed form for the backoff value after `k` doublings of 100 ms,
capped at 30 000 ms. -/
def backoffCap (k : Nat) : Nat := min (100 * 2 ^ k) 30000

/-- The multimap bucket of one session in `session_data_sources_`:
entries are (descriptor key, instance id). -/
def bucketOf (st : ProducerState) (sid : Nat) : List (Nat × Nat) :=
  (alookup st.session_data_sources sid).getD []

/-- `session_data_sources_[session_id].emplace(desc, instance)`:
append an entry to the session's bucket, creating the bucket if absent. -/
def mmInsert (m : List (Nat × List (Nat × Nat))) (sid : Nat) (e : Nat × Nat) :
    List (Nat × List (Nat × Nat)) :=
  aset m sid ((alookup m sid).getD [] ++ [e])

/-- The erase loop of `StopDataSource`: in the session's bucket, erase
the one entry matching both descriptor and instance; drop the session
key when its bucket empties; no-op when the session or entry is absent. -/
def mmEraseOne (m : List (Nat × List (Nat × Nat))) (sid : Nat) (e : Nat × Nat) :
    List (Nat × List (Nat × Nat)) :=
  match alookup m sid with
  | none => m
  | some l =>
    if e ∈ l then
      let l2 := l.erase e
      if l2 = [] then aerase m sid else aset m sid l2
    else m

/-- One `session_data_sources_` entry refers to an instance that is
owned by `data_sources_`, lives in that session and has that
descriptor. -/
def refOkB (st : ProducerState) (sid : Nat) (e : Nat × Nat) : Bool :=
  match alookup st.data_sources e.2 with
  | some inst =>
    decide (inst.tracing_session_id = sid ∧ inst.descriptor = e.1)
  | none => false

/-- Registry coherence: every owned instance appears exactly once in its
session's bucket under its descriptor key, and every bucket entry refers
back to an owned instance of that session and descriptor. -/
def coherent (st : ProducerState) : Prop :=
  (∀ p ∈ st.data_sources,
    (bucketOf st p.2.tracing_session_id).count (p.2.descriptor, p.1) = 1) ∧
  (∀ q ∈ st.session_data_sources, ∀ e ∈ q.2, refOkB st q.1 e = true)

/-- Structural well-formedness of the producer maps: unique keys. -/
def wfState (st : ProducerState) : Prop :=
  keysNodup st.data_sources ∧ keysNodup st.session_data_sources ∧
    keysNodup st.watchdogs

instance instDecidableKeysNodup {β : Type} (m : List (Nat × β)) :
    Decidable (keysNodup m) :=
  inferInstanceAs (Decidable (m.map Prod.fst).Nodup)

instance instDecidableCoherent (st : ProducerState) :
    Decidable (coherent st) :=
  inferInstanceAs (Decidable
    ((∀ p ∈ st.data_sources,
      (bucketOf st p.2.tracing_session_id).count (p.2.descriptor, p.1) = 1) ∧
     (∀ q ∈ st.session_data_sources, ∀ e ∈ q.2, refOkB st q.1 e = true)))

instance instDecidableWfState (st : ProducerState) :
    Decidable (wfState st) :=
  inferInstanceAs (Decidable
    (keysNodup st.data_sources ∧ keysNodup st.session_data_sources ∧
      keysNodup st.watchdogs))

/-- `ProbesProducer::SetupDataSource`. `none` models the fatal
`PERFETTO_CHECK(session_id > 0)`. The catalogue lookup walks
`kAllDataSources` for the first descriptor whose name matches; the
factory outcome is abstracted by `factory` (the concrete factories
construct an instance of the matched descriptor and given session, with
empty metadata; the returned `Bool` is the process-stats
`on_demand_dumps_enabled` capability read from the config). On a factory
failure the producer logs and returns with nothing changed and no call
to the service. -/
def setupDataSource (cat : List Descriptor)
    (factory : Descriptor → DataSourceConfig → Option Bool)
    (st : ProducerState) (instance_id : Nat) (config : DataSourceConfig) :
    Option (ProducerState × List Event) :=
  let session_id := config.tracing_session_id
  if session_id = 0 then none
  else
    let data_source : Option ProbesDataSource :=
      match cat.find? (fun d => decide (d.name = config.name)) with
      | none => none
      | some d =>
        match factory d config with
        | none => none
        | some on_demand =>
          some { descriptor := d.key, tracing_session_id := session_id,
                 started := false, rename_pids := [], pids := [],
                 inode_and_device := [], on_demand_dumps_enabled := on_demand }
    match data_source with
    | none => some (st, [])
    | some ds =>
      some ({ st with
        session_data_sources :=
          mmInsert st.session_data_sources session_id (ds.descriptor, instance_id),
        data_sources := aset st.data_sources instance_id ds }, [])

/-- `ProbesProducer::StartDataSource`: no-op when the id is unknown or
the instance already started; otherwise arms a fatal timer of
`5000 + 2 * trace_duration_ms` ms when a duration is configured
(`map::emplace` keeps an existing timer), marks the instance started,
calls `Start()` and notifies the service. -/
def startDataSource (st : ProducerState) (instance_id : Nat)
    (config : DataSourceConfig) : ProducerState × List Event :=
  match alookup st.data_sources instance_id with
  | none => (st, [])
  | some ds =>
    if ds.started then (st, [])
    else
      let watchdogs :=
        if config.trace_duration_ms ≠ 0 then
          if (alookup st.watchdogs instance_id).isSome then st.watchdogs
          else
            st.watchdogs ++
              [(instance_id, (5000 + 2 * config.trace_duration_ms) % U32)]
        else st.watchdogs
      ({ st with
          data_sources :=
            aset st.data_sources instance_id { ds with started := true },
          watchdogs := watchdogs },
       [Event.dsStart instance_id, Event.notifyDataSourceStarted instance_id])

/-- `ProbesProducer::StopDataSource`: no-op when the id is unknown;
otherwise issues the metatrace re-flush special case, notifies the stop,
removes the instance from both indices and drops any fatal timer. -/
def stopDataSource (st : ProducerState) (id : Nat) :
    ProducerState × List Event :=
  match alookup st.data_sources id with
  | none => (st, [])
  | some ds =>
    let evs :=
      (if ds.descriptor = MetatraceDescriptor.key then [Event.dsFlush id 0]
       else []) ++ [Event.notifyDataSourceStopped id]
    ({ st with
        data_sources := aerase st.data_sources id,
        session_data_sources :=
          mmEraseOne st.session_data_sources ds.tracing_session_id
            (ds.descriptor, id),
        watchdogs := aerase st.watchdogs id }, evs)

/-- `ProbesProducer::Flush`: fan the request out to every resolved,
started instance, recording `(flush_id, id)` in the pending table; ack
immediately when nothing was enqueued, otherwise post the 1000 ms
timeout task (the returned `Bool`). -/
def flushRequest (st : ProducerState) (flush_request_id : Nat)
    (data_source_ids : List Nat) : ProducerState × List Event × Bool :=
  let r := data_source_ids.foldl
    (fun (acc : ProducerState × List Event × Bool) ds_id =>
      match alookup acc.1.data_sources ds_id with
      | none => acc
      | some ds =>
        if ds.started then
          ({ acc.1 with pending_flushes :=
              acc.1.pending_flushes ++ [(flush_request_id, ds_id)] },
           acc.2.1 ++ [Event.dsFlush ds_id flush_request_id], true)
        else acc)
    (st, [], false)
  if r.2.2 then (r.1, r.2.1, true)
  else (r.1, r.2.1 ++ [Event.notifyFlushComplete flush_request_id], false)

/-- `ProbesProducer::OnDataSourceFlushComplete`: erase one matching
`(flush_id, id)` entry; when no entry for that `flush_id` remains
(including when none existed), notify the service. -/
def onDataSourceFlushComplete (st : ProducerState)
    (flush_request_id ds_id : Nat) : ProducerState × List Event :=
  let pf := st.pending_flushes.erase (flush_request_id, ds_id)
  let st2 := { st with pending_flushes := pf }
  if pf.any (fun e => decide (e.1 = flush_request_id)) then (st2, [])
  else (st2, [Event.notifyFlushComplete flush_request_id])

/-- `ProbesProducer::OnFlushTimeout`: no-op when everything acked;
otherwise drop all remaining entries of the id and notify. -/
def onFlushTimeout (st : ProducerState) (flush_request_id : Nat) :
    ProducerState × List Event :=
  if st.pending_flushes.any (fun e => decide (e.1 = flush_request_id)) then
    ({ st with pending_flushes :=
        st.pending_flushes.filter (fun e => decide (e.1 ≠ flush_request_id)) },
     [Event.notifyFlushComplete flush_request_id])
  else (st, [])

/-- `FtraceMetadata::Clear` on an ftrace instance. -/
def clearMetadata (ds : ProbesDataSource) : ProbesDataSource :=
  { ds with rename_pids := [], pids := [], inode_and_device := [] }

/-- Delivery to one process-stats registry entry: a started instance
with on-demand dumps enabled receives the rename pids (when non-empty)
strictly before the seen pids (when non-empty). -/
def psEventAt (dsrc : List (Nat × ProbesDataSource))
    (rename_pids seen_pids : List Nat) (e : Nat × Nat) : List Event :=
  match alookup dsrc e.2 with
  | none => []
  | some ps =>
    if ps.started && ps.on_demand_dumps_enabled then
      (if rename_pids.isEmpty then []
       else [Event.onRenamePids e.2 rename_pids]) ++
      (if seen_pids.isEmpty then [] else [Event.onPids e.2 seen_pids])
    else []

/-- The process-stats delivery loop of
`OnFtraceDataWrittenIntoDataSourceBuffers` for one ftrace instance's
metadata, over the session's `equal_range` of process-stats entries. -/
def psEventsFor (dsrc : List (Nat × ProbesDataSource))
    (rename_pids seen_pids : List Nat) (bucket : List (Nat × Nat)) :
    List Event :=
  cmap (psEventAt dsrc rename_pids seen_pids)
    (bucket.filter (fun e => decide (e.1 = ProcessStatsDescriptor.key)))

/-- Delivery to one inode-file registry entry: a started instance
receives the inode/device pairs. -/
def inoEventAt (dsrc : List (Nat × ProbesDataSource))
    (inodes : List (Nat × Nat)) (e : Nat × Nat) : List Event :=
  match alookup dsrc e.2 with
  | none => []
  | some ino => if ino.started then [Event.onInodes e.2 inodes] else []

/-- The inode delivery loop, over the session's `equal_range` of
inode-file entries. -/
def inoEventsFor (dsrc : List (Nat × ProbesDataSource))
    (inodes : List (Nat × Nat)) (bucket : List (Nat × Nat)) : List Event :=
  cmap (inoEventAt dsrc inodes)
    (bucket.filter (fun e => decide (e.1 = InodeFileDescriptor.key)))

/-- The body of the ftrace loop: skip non-started ftrace instances;
otherwise deliver the metadata to the peers of the session and clear it
on the ftrace instance. -/
def processFtraceEntry (bucket : List (Nat × Nat))
    (acc : List (Nat × ProbesDataSource) × List Event) (e : Nat × Nat) :
    List (Nat × ProbesDataSource) × List Event :=
  match alookup acc.1 e.2 with
  | none => acc
  | some f =>
    if f.started then
      (aset acc.1 e.2 (clearMetadata f),
       acc.2 ++ psEventsFor acc.1 f.rename_pids f.pids bucket ++
         inoEventsFor acc.1 f.inode_and_device bucket)
    else acc

/-- `equal_range(&FtraceDataSource::descriptor)` over a session bucket. -/
def ftraceEntriesOf (bucket : List (Nat × Nat)) : List (Nat × Nat) :=
  bucket.filter (fun e => decide (e.1 = FtraceDescriptor.key))

/-- Per-session part of `OnFtraceDataWrittenIntoDataSourceBuffers`. -/
def processSession (acc : List (Nat × ProbesDataSource) × List Event)
    (sess : Nat × List (Nat × Nat)) :
    List (Nat × ProbesDataSource) × List Event :=
  (ftraceEntriesOf sess.2).foldl (processFtraceEntry sess.2) acc

/-- `ProbesProducer::OnFtraceDataWrittenIntoDataSourceBuffers`. -/
def onFtraceDataWrittenIntoDataSourceBuffers (st : ProducerState) :
    ProducerState × List Event :=
  let r := st.session_data_sources.foldl processSession (st.data_sources, [])
  ({ st with data_sources := r.1 }, r.2)

/-- All instance ids referenced as ftrace data sources anywhere in
`session_data_sources_`. -/
def allFtraceRefs (sds : List (Nat × List (Nat × Nat))) : List Nat :=
  cmap (fun s => (ftraceEntriesOf s.2).map Prod.snd) sds

/-- During the broadcast the owning map changes only by clearing the
metadata of some instances: every lookup yields either the original
instance or its metadata-cleared copy. -/
def metaOnly (orig cur : List (Nat × ProbesDataSource)) : Prop :=
  ∀ k, alookup cur k = alookup orig k ∨
    alookup cur k = (alookup orig k).map clearMetadata

/-- The ftrace instance of the metadata-propagation scenario: started,
in session 3, holding rename pids {100}, seen pids {100, 101} and the
inode/device pair (9, 42). -/
def c7Ftrace : ProbesDataSource :=
  { descriptor := FtraceDescriptor.key, tracing_session_id := 3,
    started := true, rename_pids := [100], pids := [100, 101],
    inode_and_device := [(9, 42)], on_demand_dumps_enabled := false }

/-- The process-stats instance of the scenario: started, in session 3,
with on-demand dumps enabled. -/
def c7ProcessStats : ProbesDataSource :=
  { descriptor := ProcessStatsDescriptor.key, tracing_session_id := 3,
    started := true, rename_pids := [], pids := [],
    inode_and_device := [], on_demand_dumps_enabled := true }

/-- The inode-file instance of the scenario: started, in session 3. -/
def c7InodeFile : ProbesDataSource :=
  { descriptor := InodeFileDescriptor.key, tracing_session_id := 3,
    started := true, rename_pids := [], pids := [],
    inode_and_device := [], on_demand_dumps_enabled := false }

/-- The spec's metadata-propagation scenario: in session 3, the started
ftrace instance 1 holding metadata, the started process-stats instance 2
with on-demand dumps enabled, and the started inode-file instance 3. -/
def c7DemoState : ProducerState :=
  { state := .Connected, connection_backoff_ms := 100,
    data_sources := [(1, c7Ftrace), (2, c7ProcessStats), (3, c7InodeFile)],
    session_data_sources :=
      [(3, [(FtraceDescriptor.key, 1), (ProcessStatsDescriptor.key, 2),
            (InodeFileDescriptor.key, 3)])],
    pending_flushes := [], watchdogs := [] }

/-- A started instance with no metadata, for the concrete scenarios. -/
def demoDataSource (desc sid : Nat) : ProbesDataSource :=
  { descriptor := desc, tracing_session_id := sid, started := true,
    rename_pids := [], pids := [], inode_and_device := [],
    on_demand_dumps_enabled := false }

/-- The flush scenario state: started instances 1 and 2 on session 7. -/
def flushDemoState : ProducerState :=
  { state := .Connected, connection_backoff_ms := 100,
    data_sources :=
      [(1, demoDataSource ProcessStatsDescriptor.key 7),
       (2, demoDataSource ProcessStatsDescriptor.key 7)],
    session_data_sources :=
      [(7, [(ProcessStatsDescriptor.key, 1), (ProcessStatsDescriptor.key, 2)])],
    pending_flushes := [], watchdogs := [] }

/-- The flush scenario after `Flush(42, [1, 2])`. -/
def flushDemo1 : ProducerState × List Event × Bool :=
  flushRequest flushDemoState 42 [1, 2]

/-- The flush scenario after instance 1 acked. -/
def flushDemo2 : ProducerState × List Event :=
  onDataSourceFlushComplete flushDemo1.1 42 1

/-- The flush scenario after the 1000 ms timeout fired. -/
def flushDemo3 : ProducerState × List Event :=
  onFlushTimeout flushDemo2.1 42

/-- The flush scenario after instance 2's late ack. -/
def flushDemo4 : ProducerState × List Event :=
  onDataSourceFlushComplete flushDemo3.1 42 2

/-- A coherent registry with one started instance (id 9, process-stats,
session 3) carrying a fatal timer. -/
def c5DemoState : ProducerState :=
  { state := .Connected, connection_backoff_ms := 100,
    data_sources := [(9, demoDataSource ProcessStatsDescriptor.key 3)],
    session_data_sources := [(3, [(ProcessStatsDescriptor.key, 9)])],
    pending_flushes := [], watchdogs := [(9, 1234)] }

/-- `c5DemoState` after a successful `SetupDataSource(5, process_stats,
session 3)`. -/
def c5DemoAfter : ProducerState :=
  ((setupDataSource [ProcessStatsDescriptor] (fun _ _ => some false)
    c5DemoState 5 ⟨"linux.process_stats", 3, 0⟩).getD (c5DemoState, [])).1

theorem alookup_aset_self {β : Type} (m : List (Nat × β)) (k : Nat) (v : β) :
    alookup (aset m k v) k = some v := by
  induction m with
  | nil => simp [aset, alookup]
  | cons hd t ih =>
    obtain ⟨k0, v0⟩ := hd
    by_cases hk : k0 = k
    · simp [aset, hk, alookup]
    · simp [aset, hk, alookup, ih]

theorem alookup_aset_ne {β : Type} (m : List (Nat × β)) (k k' : Nat) (v : β)
    (h : k' ≠ k) : alookup (aset m k v) k' = alookup m k' := by
  have hne : ¬ (k = k') := fun hh => h hh.symm
  induction m with
  | nil => simp [aset, alookup, hne]
  | cons hd t ih =>
    obtain ⟨k0, v0⟩ := hd
    by_cases hk : k0 = k
    · subst hk
      simp [aset, alookup, hne]
    · simp only [aset, hk, if_false, alookup]
      by_cases hk' : k0 = k'
      · simp [hk']
      · simp [hk', ih]

theorem alookup_aerase_ne {β : Type} (m : List (Nat × β)) (k k' : Nat)
    (h : k' ≠ k) : alookup (aerase m k) k' = alookup m k' := by
  have hne : ¬ (k = k') := fun hh => h hh.symm
  induction m with
  | nil => simp [aerase]
  | cons hd t ih =>
    obtain ⟨k0, v0⟩ := hd
    by_cases hk : k0 = k
    · subst hk
      simp [aerase, alookup, hne]
    · simp only [aerase, hk, if_false, alookup]
      by_cases hk' : k0 = k'
      · simp [hk']
      · simp [hk', ih]

theorem alookup_none_of_not_mem_keys {β : Type} (m : List (Nat × β)) (k : Nat)
    (h : k ∉ m.map Prod.fst) : alookup m k = none := by
  induction m with
  | nil => rfl
  | cons hd t ih =>
    obtain ⟨k0, v0⟩ := hd
    simp only [List.map_cons, List.mem_cons] at h
    push_neg at h
    have hk : ¬ (k0 = k) := fun hh => h.1 hh.symm
    simp [alookup, hk, ih h.2]

theorem mem_keys_of_alookup_eq_some {β : Type} (m : List (Nat × β)) (k : Nat)
    (v : β) (h : alookup m k = some v) : k ∈ m.map Prod.fst := by
  induction m with
  | nil => simp [alookup] at h
  | cons hd t ih =>
    obtain ⟨k0, v0⟩ := hd
    by_cases hk : k0 = k
    · simp [hk]
    · simp only [alookup, hk, if_false] at h
      simp only [List.map_cons, List.mem_cons]
      exact Or.inr (ih h)

theorem alookup_aerase_self {β : Type} (m : List (Nat × β)) (k : Nat)
    (h : keysNodup m) : alookup (aerase m k) k = none := by
  induction m with
  | nil => rfl
  | cons hd t ih =>
    obtain ⟨k0, v0⟩ := hd
    simp only [keysNodup, List.map_cons, List.nodup_cons] at h
    by_cases hk : k0 = k
    · subst hk
      simp only [aerase, if_pos rfl]
      exact alookup_none_of_not_mem_keys t k0 h.1
    · simp [aerase, hk, alookup, ih h.2]

theorem mem_of_alookup_eq_some {β : Type} (m : List (Nat × β)) (k : Nat)
    (v : β) (h : alookup m k = some v) : (k, v) ∈ m := by
  induction m with
  | nil => simp [alookup] at h
  | cons hd t ih =>
    obtain ⟨k0, v0⟩ := hd
    by_cases hk : k0 = k
    · subst hk
      have h' : some v0 = some v := by simpa [alookup] using h
      cases Option.some.inj h'
      exact List.mem_cons.2 (Or.inl rfl)
    · simp only [alookup, hk, if_false] at h
      exact List.mem_cons.2 (Or.inr (ih h))

theorem alookup_eq_some_of_mem {β : Type} (m : List (Nat × β)) (k : Nat)
    (v : β) (hnd : keysNodup m) (h : (k, v) ∈ m) : alookup m k = some v := by
  induction m with
  | nil => simp at h
  | cons hd t ih =>
    obtain ⟨k0, v0⟩ := hd
    simp only [keysNodup, List.map_cons, List.nodup_cons] at hnd
    rcases List.mem_cons.1 h with h1 | h1
    · cases h1
      simp [alookup]
    · have hk : k0 ≠ k := by
        rintro rfl
        exact hnd.1 (List.mem_map.2 ⟨(k0, v), h1, rfl⟩)
      simp [alookup, hk, ih hnd.2 h1]

theorem aset_of_not_mem_keys {β : Type} (m : List (Nat × β)) (k : Nat) (v : β)
    (h : k ∉ m.map Prod.fst) : aset m k v = m ++ [(k, v)] := by
  induction m with
  | nil => rfl
  | cons hd t ih =>
    obtain ⟨k0, v0⟩ := hd
    simp only [List.map_cons, List.mem_cons] at h
    push_neg at h
    have hk : ¬ (k0 = k) := fun hh => h.1 hh.symm
    simp [aset, hk, ih h.2]

theorem keys_aset_of_mem {β : Type} (m : List (Nat × β)) (k : Nat) (v : β)
    (h : k ∈ m.map Prod.fst) :
    (aset m k v).map Prod.fst = m.map Prod.fst := by
  induction m with
  | nil => simp at h
  | cons hd t ih =>
    obtain ⟨k0, v0⟩ := hd
    by_cases hk : k0 = k
    · subst hk
      simp [aset]
    · have hk' : k ∈ t.map Prod.fst := by
        simp only [List.map_cons, List.mem_cons] at h
        rcases h with h1 | h1
        · exact absurd h1.symm hk
        · exact h1
      simp [aset, hk, ih hk']

theorem keys_aset_of_not_mem {β : Type} (m : List (Nat × β)) (k : Nat) (v : β)
    (h : k ∉ m.map Prod.fst) :
    (aset m k v).map Prod.fst = m.map Prod.fst ++ [k] := by
  rw [aset_of_not_mem_keys m k v h]
  simp

theorem keysNodup_aset {β : Type} (m : List (Nat × β)) (k : Nat) (v : β)
    (h : keysNodup m) : keysNodup (aset m k v) := by
  by_cases hk : k ∈ m.map Prod.fst
  · unfold keysNodup
    rw [keys_aset_of_mem m k v hk]
    exact h
  · unfold keysNodup
    rw [keys_aset_of_not_mem m k v hk, List.nodup_append]
    refine ⟨h, List.nodup_singleton k, ?_⟩
    intro a ha hb
    rw [List.mem_singleton] at hb
    subst hb
    exact hk ha

theorem mem_keys_aerase {β : Type} (m : List (Nat × β)) (k a : Nat)
    (h : a ∈ (aerase m k).map Prod.fst) : a ∈ m.map Prod.fst := by
  induction m with
  | nil => simp [aerase] at h
  | cons hd t ih =>
    obtain ⟨k0, v0⟩ := hd
    by_cases hk : k0 = k
    · subst hk
      simp only [aerase, if_pos rfl] at h
      simp only [List.map_cons, List.mem_cons]
      exact Or.inr h
    · simp only [aerase, hk, if_false, List.map_cons, List.mem_cons] at h
      simp only [List.map_cons, List.mem_cons]
      rcases h with h1 | h1
      · exact Or.inl h1
      · exact Or.inr (ih h1)

theorem keysNodup_aerase {β : Type} (m : List (Nat × β)) (k : Nat)
    (h : keysNodup m) : keysNodup (aerase m k) := by
  induction m with
  | nil => simpa [aerase] using h
  | cons hd t ih =>
    obtain ⟨k0, v0⟩ := hd
    simp only [keysNodup, List.map_cons, List.nodup_cons] at h
    by_cases hk : k0 = k
    · subst hk
      simp only [keysNodup, aerase, if_pos rfl]
      exact h.2
    · simp only [keysNodup, aerase, hk, if_false, List.map_cons,
        List.nodup_cons]
      exact ⟨fun hm => h.1 (mem_keys_aerase t k k0 hm), ih h.2⟩

theorem mem_aerase_nodup {β : Type} (m : List (Nat × β))
    (k : Nat) (p : Nat × β) (hnd : keysNodup m) :
    p ∈ aerase m k ↔ p ∈ m ∧ p.1 ≠ k := by
  induction m with
  | nil => simp [aerase]
  | cons hd t ih =>
    obtain ⟨k0, v0⟩ := hd
    simp only [keysNodup, List.map_cons, List.nodup_cons] at hnd
    by_cases hk : k0 = k
    · subst hk
      simp only [aerase, if_pos rfl]
      constructor
      · intro hp
        refine ⟨List.mem_cons.2 (Or.inr hp), ?_⟩
        rintro rfl
        exact hnd.1 (List.mem_map.2 ⟨p, hp, rfl⟩)
      · rintro ⟨hp, hne⟩
        rcases List.mem_cons.1 hp with h1 | h1
        · exact absurd (congrArg Prod.fst h1) hne
        · exact h1
    · simp only [aerase, hk, if_false]
      constructor
      · intro hp
        rcases List.mem_cons.1 hp with h1 | h1
        · subst h1
          exact ⟨List.mem_cons.2 (Or.inl rfl), hk⟩
        · have := (ih hnd.2).1 h1
          exact ⟨List.mem_cons.2 (Or.inr this.1), this.2⟩
      · rintro ⟨hp, hne⟩
        rcases List.mem_cons.1 hp with h1 | h1
        · subst h1
          exact List.mem_cons.2 (Or.inl rfl)
        · exact List.mem_cons.2 (Or.inr ((ih hnd.2).2 ⟨h1, hne⟩))

theorem mem_aset_nodup {β : Type} (m : List (Nat × β))
    (k : Nat) (v : β) (p : Nat × β) (hnd : keysNodup m) :
    p ∈ aset m k v ↔ p = (k, v) ∨ (p ∈ m ∧ p.1 ≠ k) := by
  induction m with
  | nil => simp [aset]
  | cons hd t ih =>
    obtain ⟨k0, v0⟩ := hd
    simp only [keysNodup, List.map_cons, List.nodup_cons] at hnd
    by_cases hk : k0 = k
    · subst hk
      simp only [aset, if_pos rfl]
      constructor
      · intro hp
        rcases List.mem_cons.1 hp with h1 | h1
        · exact Or.inl h1
        · refine Or.inr ⟨List.mem_cons.2 (Or.inr h1), ?_⟩
          rintro rfl
          exact hnd.1 (List.mem_map.2 ⟨p, h1, rfl⟩)
      · rintro (h1 | ⟨h1, hne⟩)
        · exact List.mem_cons.2 (Or.inl h1)
        · rcases List.mem_cons.1 h1 with h2 | h2
          · exact absurd (congrArg Prod.fst h2) hne
          · exact List.mem_cons.2 (Or.inr h2)
    · simp only [aset, hk, if_false]
      constructor
      · intro hp
        rcases List.mem_cons.1 hp with h1 | h1
        · subst h1
          exact Or.inr ⟨List.mem_cons.2 (Or.inl rfl), hk⟩
        · rcases (ih hnd.2).1 h1 with h2 | h2
          · exact Or.inl h2
          · exact Or.inr ⟨List.mem_cons.2 (Or.inr h2.1), h2.2⟩
      · rintro (h1 | ⟨h1, hne⟩)
        · exact List.mem_cons.2 (Or.inr ((ih hnd.2).2 (Or.inl h1)))
        · rcases List.mem_cons.1 h1 with h2 | h2
          · subst h2
            exact List.mem_cons.2 (Or.inl rfl)
          · exact List.mem_cons.2 (Or.inr ((ih hnd.2).2 (Or.inr ⟨h2, hne⟩)))

theorem alookup_append_left {β : Type} (m m' : List (Nat × β)) (k : Nat)
    (v : β) (h : alookup m k = some v) : alookup (m ++ m') k = some v := by
  induction m with
  | nil => simp [alookup] at h
  | cons hd t ih =>
    obtain ⟨k0, v0⟩ := hd
    by_cases hk : k0 = k
    · simp only [alookup, if_pos hk] at h
      simp only [List.cons_append, alookup, if_pos hk]
      exact h
    · simp only [alookup, hk, if_false] at h
      simp only [List.cons_append, alookup, hk, if_false]
      exact ih h

theorem alookup_append_right {β : Type} (m m' : List (Nat × β)) (k : Nat)
    (h : alookup m k = none) : alookup (m ++ m') k = alookup m' k := by
  induction m with
  | nil => rfl
  | cons hd t ih =>
    obtain ⟨k0, v0⟩ := hd
    by_cases hk : k0 = k
    · simp [alookup, hk] at h
    · simp only [alookup, hk, if_false] at h
      simp only [List.cons_append, alookup, hk, if_false]
      exact ih h

theorem cmap_append {α β : Type} (f : α → List β) (l1 l2 : List α) :
    cmap f (l1 ++ l2) = cmap f l1 ++ cmap f l2 := by
  induction l1 with
  | nil => rfl
  | cons x t ih => simp [cmap, ih]

theorem mem_cmap {α β : Type} (f : α → List β) (l : List α) (a : α) (b : β)
    (ha : a ∈ l) (hb : b ∈ f a) : b ∈ cmap f l := by
  induction l with
  | nil => simp at ha
  | cons x t ih =>
    rcases List.mem_cons.1 ha with h | h
    · subst h
      exact List.mem_append.2 (Or.inl hb)
    · exact List.mem_append.2 (Or.inr (ih h))

theorem set_append_cons {α : Type} (l1 : List α) (a x : α) (l2 : List α) :
    (l1 ++ a :: l2).set l1.length x = l1 ++ x :: l2 := by
  induction l1 with
  | nil => rfl
  | cons h t ih => simp [List.set, ih]

/-! ## Ring-buffer lemmas -/

theorem push_buffer (w : WindowedInterval) (x : Nat) :
    (w.push x).1.buffer = w.buffer.set w.position x := rfl

theorem push_position (w : WindowedInterval) (x : Nat) :
    (w.push x).1.position = (w.position + 1) % w.size := rfl

theorem push_size (w : WindowedInterval) (x : Nat) :
    (w.push x).1.size = w.size := rfl

theorem push_filled (w : WindowedInterval) (x : Nat) :
    (w.push x).1.filled =
      (w.filled || decide ((w.position + 1) % w.size = 0)) := rfl

theorem pushList_append (w : WindowedInterval) (xs : List Nat) (x : Nat) :
    pushList w (xs ++ [x]) = ((pushList w xs).push x).1 := by
  simp [pushList, List.foldl_append]

theorem filled_step (c k : Nat) :
    (decide (c ≤ k) || decide ((k + 1) % c = 0)) = decide (c ≤ k + 1) := by
  by_cases hk : c ≤ k
  · have h1 : c ≤ k + 1 := by omega
    simp [hk, h1]
  · by_cases he : k + 1 = c
    · have h0 : (k + 1) % c = 0 := by rw [he]; exact Nat.mod_self c
      have h1 : c ≤ k + 1 := by omega
      simp [hk, h0, h1]
    · have hlt : k + 1 < c := by omega
      have h0 : (k + 1) % c = k + 1 := Nat.mod_eq_of_lt hlt
      have hne : ¬ ((k + 1) % c = 0) := by omega
      have h1 : ¬ (c ≤ k + 1) := by omega
      simp [hk, hne, h1]

theorem pushList_fresh_shape (c : Nat) (hc : 1 ≤ c) (xs : List Nat) :
    (pushList (freshRing c) xs).size = c ∧
    (pushList (freshRing c) xs).buffer.length = c ∧
    (pushList (freshRing c) xs).position = xs.length % c ∧
    (pushList (freshRing c) xs).filled = decide (c ≤ xs.length) := by
  induction xs using List.reverseRecOn with
  | nil =>
    have h0 : ¬ (c ≤ 0) := by omega
    refine ⟨rfl, by simp [pushList, freshRing], by simp [pushList, freshRing],
      by simp [pushList, freshRing, h0]⟩
  | append_singleton ys y ih =>
    obtain ⟨h1, h2, h3, h4⟩ := ih
    rw [pushList_append]
    refine ⟨by rw [push_size, h1], ?_, ?_, ?_⟩
    · rw [push_buffer, List.length_set, h2]
    · rw [push_position, h1, h3, Nat.mod_add_mod]
      simp
    · rw [push_filled, h1, h3, h4, Nat.mod_add_mod, filled_step c ys.length]
      simp

theorem pushList_fresh_buffer (c : Nat) (hc : 1 ≤ c) (xs : List Nat) :
    xs.length ≤ c →
    (pushList (freshRing c) xs).buffer =
      xs ++ List.replicate (c - xs.length) 0 := by
  induction xs using List.reverseRecOn with
  | nil => intro _; simp [pushList, freshRing]
  | append_singleton ys y ih =>
    intro hlen
    have hys : ys.length + 1 ≤ c := by simpa using hlen
    have hlt : ys.length < c := by omega
    obtain ⟨h1, h2, h3, h4⟩ := pushList_fresh_shape c hc ys
    rw [pushList_append, push_buffer, h3, Nat.mod_eq_of_lt hlt,
      ih (by omega)]
    have hrep : c - ys.length = (c - (ys.length + 1)) + 1 := by omega
    rw [hrep, List.replicate_succ, set_append_cons]
    simp

/-! ## Backoff lemmas -/

theorem increase_backoffCap (st : ProducerState) (k : Nat)
    (h : st.connection_backoff_ms = backoffCap k) :
    (increaseConnectionBackoff st).connection_backoff_ms =
      backoffCap (k + 1) := by
  have hcap : backoffCap k ≤ 30000 := Nat.min_le_right _ _
  have hmod : backoffCap k * 2 % U32 = backoffCap k * 2 :=
    Nat.mod_eq_of_lt (by unfold U32; omega)
  have hpow : 100 * 2 ^ (k + 1) = 100 * 2 ^ k * 2 := by ring
  unfold increaseConnectionBackoff
  simp only [h, hmod, kMaxConnectionBackoffMs]
  unfold backoffCap
  rw [hpow]
  rcases Nat.le_total (100 * 2 ^ k) 30000 with hle | hle
  · rw [Nat.min_eq_left hle]
    rcases Nat.le_total (100 * 2 ^ k * 2) 30000 with h2 | h2
    · rw [Nat.min_eq_left h2]
      split_ifs <;> omega
    · rw [Nat.min_eq_right h2]
      split_ifs <;> omega
  · rw [Nat.min_eq_right hle, Nat.min_eq_right (by omega)]
    split_ifs <;> omega

theorem failureDelays_eq (n : Nat) : ∀ (k : Nat) (st : ProducerState),
    st.state = ConnState.Connecting →
    st.connection_backoff_ms = backoffCap k →
    failureDelays n st =
      (List.range n).map (fun i => backoffCap (k + 1 + i)) := by
  induction n with
  | zero => intro k st _ _; simp [failureDelays]
  | succ n ih =>
    intro k st hs hb
    have hne : ¬ (st.state = ConnState.Connected) := by rw [hs]; intro hh; cases hh
    have hstep :
        onDisconnect st =
          (increaseConnectionBackoff { st with state := ConnState.NotConnected },
            some (increaseConnectionBackoff
              { st with state := ConnState.NotConnected }).connection_backoff_ms) := by
      unfold onDisconnect
      rw [if_neg hne]
    have hbk :
        (increaseConnectionBackoff
          { st with state := ConnState.NotConnected }).connection_backoff_ms =
          backoffCap (k + 1) :=
      increase_backoffCap _ k hb
    unfold failureDelays
    rw [hstep]
    simp only [Option.getD_some, hbk]
    rw [ih (k + 1) _ rfl (by simpa [connect, increaseConnectionBackoff] using hbk)]
    rw [List.range_succ_eq_map, List.map_cons, List.map_map]
    refine congrArg₂ List.cons (by simp) ?_
    refine List.map_congr_left ?_
    intro i _
    simp only [Function.comp]
    congr 1
    omega

/-! ## Flush helper lemmas -/

theorem any_key_eq_false (l : List (Nat × Nat)) (fid : Nat)
    (h : ∀ e ∈ l, e.1 ≠ fid) :
    l.any (fun e => decide (e.1 = fid)) = false := by
  induction l with
  | nil => rfl
  | cons e t ih =>
    have he : ¬ (e.1 = fid) := h e (List.mem_cons.2 (Or.inl rfl))
    simp only [List.any_cons, Bool.or_eq_false_iff]
    exact ⟨by simpa using he, ih fun x hx => h x (List.mem_cons.2 (Or.inr hx))⟩

/-! ## Watchdog thread lemmas -/

theorem threadStep_sample (ticks u s : Nat) (rp : Int) (w : Watchdog) :
    (∃ w2, threadStep ticks w (WakeOutcome.sample u s rp) =
      ThreadResult.polling w2) ∨
    (∃ w2, threadStep ticks w (WakeOutcome.sample u s rp) =
      ThreadResult.abortedSigabrt w2) := by
  simp only [threadStep]
  split_ifs
  · exact Or.inr ⟨_, rfl⟩
  · exact Or.inr ⟨_, rfl⟩
  · exact Or.inl ⟨_, rfl⟩

theorem threadFold_inv (ticks : Nat) (wakes : List WakeOutcome) :
    ∀ r : ThreadResult,
      ((∃ w, r = ThreadResult.polling w) ∨
        (∃ w, r = ThreadResult.abortedSigabrt w)) →
      (∀ e ∈ wakes, ∃ u s rp, e = WakeOutcome.sample u s rp) →
      ((∃ w, wakes.foldl (threadLoop ticks) r = ThreadResult.polling w) ∨
        (∃ w, wakes.foldl (threadLoop ticks) r =
          ThreadResult.abortedSigabrt w)) := by
  induction wakes with
  | nil => intro r hr _; simpa using hr
  | cons e t ih =>
    intro r hr hall
    obtain ⟨u, s, rp, he⟩ := hall e (List.mem_cons.2 (Or.inl rfl))
    subst he
    have hall' : ∀ e ∈ t, ∃ u s rp, e = WakeOutcome.sample u s rp :=
      fun x hx => hall x (List.mem_cons.2 (Or.inr hx))
    rcases hr with ⟨w, hw⟩ | ⟨w, hw⟩
    · subst hw
      simp only [List.foldl_cons]
      refine ih _ ?_ hall'
      have hstep : threadLoop ticks (ThreadResult.polling w)
          (WakeOutcome.sample u s rp) =
            threadStep ticks w (WakeOutcome.sample u s rp) := rfl
      rw [hstep]
      exact threadStep_sample ticks u s rp w
    · subst hw
      simp only [List.foldl_cons]
      exact ih _ (Or.inr ⟨w, rfl⟩) hall'

/-! ## Claim theorems -/

/-- C1 counterexample: in the spec's flush-timeout scenario
(`Flush(42, [1, 2])`, instance 1 acks, the 1000 ms timeout fires and
notifies), the late ack from instance 2 is *not* silently ignored: the
removal loop finds no matching entry, `count(42)` is zero, and
`NotifyFlushComplete(42)` is emitted a second time. -/
theorem flush_late_ack_counterexample :
    flushDemo2.2 = [] ∧
    flushDemo3.2 = [Event.notifyFlushComplete 42] ∧
    flushDemo4.2 = [Event.notifyFlushComplete 42] := by
  refine ⟨rfl, rfl, rfl⟩

/-- C1 (amended): once completion has been notified — no entries for the
`flush_id` remain in the pending table — a later
`OnDataSourceFlushComplete(flush_id, id)` leaves the table unchanged but
emits `NotifyFlushComplete(flush_id)` again (late acks re-notify rather
than being ignored), while `OnFlushTimeout(flush_id)` is a strict no-op. -/
theorem flush_completion_renotify (st : ProducerState) (fid id : Nat)
    (h : ∀ e ∈ st.pending_flushes, e.1 ≠ fid) :
    onDataSourceFlushComplete st fid id =
      (st, [Event.notifyFlushComplete fid]) ∧
    onFlushTimeout st fid = (st, []) := by
  have hnm : (fid, id) ∉ st.pending_flushes := fun hm => (h _ hm) rfl
  have herase : st.pending_flushes.erase (fid, id) = st.pending_flushes :=
    List.erase_of_not_mem hnm
  have hany : st.pending_flushes.any (fun e => decide (e.1 = fid)) = false :=
    any_key_eq_false _ _ h
  constructor
  · simp only [onDataSourceFlushComplete, herase, hany]
    rfl
  · simp only [onFlushTimeout, hany]
    rfl

/-- C1 witness: the amended behaviour on the concrete timed-out flush 42. -/
theorem flush_completion_renotify_witness :
    (∀ e ∈ flushDemo3.1.pending_flushes, e.1 ≠ 42) ∧
    (onDataSourceFlushComplete flushDemo3.1 42 2 =
      (flushDemo3.1, [Event.notifyFlushComplete 42]) ∧
     onFlushTimeout flushDemo3.1 42 = (flushDemo3.1, [])) :=
  ⟨by decide, flush_completion_renotify flushDemo3.1 42 2 (by decide)⟩

/-- C2 counterexample: four consecutive failed disconnects from
`Connecting` after a fresh `ConnectWithRetries` schedule delayed
reconnects of 200, 400, 800, 1600 ms — not 100, 200, 400, 800 ms as
claimed — because `OnDisconnect` doubles `connection_backoff_ms_`
*before* posting the delayed `Connect`. -/
theorem reconnect_backoff_counterexample :
    failureDelays 4 (connectWithRetries initProducerState) =
      [200, 400, 800, 1600] ∧
    ([200, 400, 800, 1600] : List Nat) ≠ [100, 200, 400, 800] := by
  exact ⟨rfl, by decide⟩

/-- C2 (amended): the backoff variable starts at 100 ms and is doubled
before each scheduling, so the delay scheduled by the k-th consecutive
failed disconnect from `Connecting` is `min (100 * 2^k) 30000` — i.e.
200, 400, 800, 1600 ms for four failures — capped at 30 000 ms, and a
successful `OnConnect` resets the backoff to 100 ms. -/
theorem reconnect_backoff_amended :
    (∀ n, failureDelays n (connectWithRetries initProducerState) =
      (List.range n).map (fun i => backoffCap (i + 1))) ∧
    (∀ st, (onConnect st).connection_backoff_ms =
      kInitialConnectionBackoffMs) ∧
    failureDelays 4 (connectWithRetries initProducerState) =
      [200, 400, 800, 1600] := by
  refine ⟨?_, fun st => rfl, rfl⟩
  intro n
  have h := failureDelays_eq n 0 (connectWithRetries initProducerState) rfl
    (by simp [connectWithRetries, connect, resetConnectionBackoff,
      kInitialConnectionBackoffMs, backoffCap])
  rw [h]
  refine List.map_congr_left ?_
  intro i _
  congr 1
  omega

/-- C3 counterexample: `mean()` is not the exact arithmetic mean — after
pushing 1 and 2 into a fresh ring of capacity 2 it returns the floor
quotient 1, not 3/2 — and `push` can return true with fewer than
`capacity` pushes since the last (re)allocation, because `Reset` does
not clear the `filled_` flag. -/
theorem ring_mean_counterexample :
    (pushList (freshRing 2) [1, 2]).meanQ ≠ ((1 : ℚ) + 2) / 2 ∧
    ((((pushList (freshRing 2) [1, 2]).reset 2).push 5).2 = true ∧
      ¬ (2 ≤ 1)) := by
  refine ⟨?_, by decide, by decide⟩
  have h : (pushList (freshRing 2) [1, 2]).meanQ = ((1 : Nat) : ℚ) := rfl
  rw [h]
  norm_num

/-- C3 (amended): on a ring allocated with its `filled` flag clear and
capacity `c ≥ 1`, `push` returns true iff at least `c` pushes have
occurred; after exactly `c` pushes of `x_0 … x_{c-1}`,
`oldest_when_full = x_0`, `newest_when_full = x_{c-1}`, and `mean()` is
the *integer* quotient of the (64-bit wrapped) sum by `c`, returned as a
real number. -/
theorem ring_laws_amended (c : Nat) (xs ys : List Nat) (hc : 1 ≤ c)
    (hlen : xs.length = c) :
    ((pushList (freshRing c) ys).filled = true ↔ c ≤ ys.length) ∧
    (pushList (freshRing c) xs).oldestWhenFull = xs.getD 0 0 ∧
    (pushList (freshRing c) xs).newestWhenFull = xs.getD (c - 1) 0 ∧
    (pushList (freshRing c) xs).meanQ = ((sum64 xs / c : Nat) : ℚ) := by
  obtain ⟨hys1, hys2, hys3, hys4⟩ := pushList_fresh_shape c hc ys
  obtain ⟨hx1, hx2, hx3, hx4⟩ := pushList_fresh_shape c hc xs
  have hbuf : (pushList (freshRing c) xs).buffer = xs := by
    rw [pushList_fresh_buffer c hc xs (by omega), hlen]
    simp
  have hpos : (pushList (freshRing c) xs).position = 0 := by
    rw [hx3, hlen, Nat.mod_self]
  refine ⟨?_, ?_, ?_, ?_⟩
  · rw [hys4]
    simp
  · rw [WindowedInterval.oldestWhenFull, hbuf, hpos]
  · rw [WindowedInterval.newestWhenFull, hbuf, hpos, hx1, Nat.zero_add,
      Nat.mod_eq_of_lt (by omega)]
  · rw [WindowedInterval.meanQ, WindowedInterval.meanNat, hbuf, hx1]

/-- C3 witness: the amended ring laws at capacity 2 with pushes 5, 7 and
a one-element probe list. -/
theorem ring_laws_amended_witness :
    (1 ≤ 2 ∧ ([5, 7] : List Nat).length = 2) ∧
    (((pushList (freshRing 2) [9]).filled = true ↔
        2 ≤ ([9] : List Nat).length) ∧
      (pushList (freshRing 2) [5, 7]).oldestWhenFull =
        ([5, 7] : List Nat).getD 0 0 ∧
      (pushList (freshRing 2) [5, 7]).newestWhenFull =
        ([5, 7] : List Nat).getD (2 - 1) 0 ∧
      (pushList (freshRing 2) [5, 7]).meanQ = ((sum64 [5, 7] / 2 : Nat) : ℚ)) :=
  ⟨⟨by decide, by decide⟩, ring_laws_amended 2 [5, 7] [9] (by decide) (by decide)⟩

/-- C4 counterexample: with polling interval 1 ms and a 4 ms memory
window the ring capacity is `4 / 1 + 1 = 5`, so pushing the RSS samples
50, 80, 120, 200 does *not* fill the ring on the 4th push and no
`SIGABRT` is raised (and the ring's mean is the floor quotient, 112 for
those four samples, never 112.5). -/
theorem watchdog_scenario_counterexample :
    scenarioWatchdog.memory_window_bytes.size = 5 ∧
    (memDrive scenarioWatchdog [50, 80, 120, 200]).2 = false := by
  exact ⟨rfl, by decide⟩

/-- C4 (amended): with a non-zero limit, `CheckMemory` raises `SIGABRT`
iff the push fills the ring and the ring's mean (the floor quotient
`Mean()` actually computes) strictly exceeds the memory-bytes limit, and
`CheckCpu` raises `SIGABRT` iff the push fills the ring and
`(newest - oldest) / ((capacity-1) * interval / 1000 * ticks) * 100`
(64-bit wrap-around difference, exact real arithmetic) strictly exceeds
the CPU percentage limit. In the spec's scenario (interval 1 ms, window
4 ms, limit 100) the capacity is 5: the first four samples 50, 80, 120,
200 raise nothing, and a 5th sample 200 fills the ring with mean
130 > 100 and raises `SIGABRT`. -/
theorem watchdog_threshold_amended (w wc : Watchdog) (rss cpu ticks : Nat)
    (hm : w.memory_limit_bytes ≠ 0) (hc : wc.cpu_limit_percentage ≠ 0) :
    ((w.checkMemory rss).2 = true ↔
      ((w.memory_window_bytes.push rss).2 = true ∧
        w.memory_limit_bytes < (w.memory_window_bytes.push rss).1.meanNat)) ∧
    ((wc.checkCpu ticks cpu).2 = true ↔
      ((wc.cpu_window_time_ticks.push cpu).2 = true ∧
        (wc.cpu_limit_percentage : ℚ) <
          cpuPercentageQ
            (sub64 (wc.cpu_window_time_ticks.push cpu).1.newestWhenFull
              (wc.cpu_window_time_ticks.push cpu).1.oldestWhenFull)
            (wc.windowTimeForRingBuffer (wc.cpu_window_time_ticks.push cpu).1)
            ticks)) ∧
    scenarioWatchdog.memory_window_bytes.size = 5 ∧
    (memDrive scenarioWatchdog [50, 80, 120, 200]).2 = false ∧
    (memDrive scenarioWatchdog [50, 80, 120, 200, 200]).2 = true ∧
    (pushList scenarioWatchdog.memory_window_bytes
      [50, 80, 120, 200, 200]).meanNat = 130 := by
  refine ⟨?_, ?_, rfl, by decide, by decide, by decide⟩
  · simp only [Watchdog.checkMemory, hm, if_false]
    split_ifs with h1 h2 <;> simp_all
  · simp only [Watchdog.checkCpu, hc, if_false]
    split_ifs with h1 h2 <;> simp_all

/-- C4 witness: the amended threshold characterisation at a concrete
watchdog with both limits configured. -/
theorem watchdog_threshold_amended_witness :
    (bothLimitsWatchdog.memory_limit_bytes ≠ 0 ∧
      bothLimitsWatchdog.cpu_limit_percentage ≠ 0) ∧
    (((bothLimitsWatchdog.checkMemory 7).2 = true ↔
      ((bothLimitsWatchdog.memory_window_bytes.push 7).2 = true ∧
        bothLimitsWatchdog.memory_limit_bytes <
          (bothLimitsWatchdog.memory_window_bytes.push 7).1.meanNat)) ∧
    ((bothLimitsWatchdog.checkCpu 100 3).2 = true ↔
      ((bothLimitsWatchdog.cpu_window_time_ticks.push 3).2 = true ∧
        (bothLimitsWatchdog.cpu_limit_percentage : ℚ) <
          cpuPercentageQ
            (sub64 (bothLimitsWatchdog.cpu_window_time_ticks.push 3).1.newestWhenFull
              (bothLimitsWatchdog.cpu_window_time_ticks.push 3).1.oldestWhenFull)
            (bothLimitsWatchdog.windowTimeForRingBuffer
              (bothLimitsWatchdog.cpu_window_time_ticks.push 3).1)
            100)) ∧
    scenarioWatchdog.memory_window_bytes.size = 5 ∧
    (memDrive scenarioWatchdog [50, 80, 120, 200]).2 = false ∧
    (memDrive scenarioWatchdog [50, 80, 120, 200, 200]).2 = true ∧
    (pushList scenarioWatchdog.memory_window_bytes
      [50, 80, 120, 200, 200]).meanNat = 130) :=
  ⟨⟨by decide, by decide⟩,
    watchdog_threshold_amended bothLimitsWatchdog bothLimitsWatchdog 7 3 100
      (by decide) (by decide)⟩

/-- C6: `SetupDataSource` fatally checks `tracing_session_id > 0`; with a
fresh instance id, when the config's name matches no known descriptor or
the matched factory returns none, it returns with both registry indices
unchanged and no call to the service, and a subsequent `StartDataSource`
on that id is a silent no-op (no state change, no service notification). -/
theorem setup_failure_silent (cat : List Descriptor)
    (factory : Descriptor → DataSourceConfig → Option Bool)
    (st : ProducerState) (instance_id : Nat)
    (config config0 : DataSourceConfig)
    (hfresh : alookup st.data_sources instance_id = none)
    (hsid : config.tracing_session_id ≠ 0)
    (hfail : cat.find? (fun d => decide (d.name = config.name)) = none ∨
      ∃ d, cat.find? (fun d => decide (d.name = config.name)) = some d ∧
        factory d config = none)
    (h0 : config0.tracing_session_id = 0) :
    setupDataSource cat factory st instance_id config = some (st, []) ∧
    startDataSource st instance_id config = (st, []) ∧
    setupDataSource cat factory st instance_id config0 = none := by
  refine ⟨?_, ?_, ?_⟩
  · rcases hfail with hnone | ⟨d, hd, hfac⟩
    · simp [setupDataSource, hsid, hnone]
    · simp [setupDataSource, hsid, hd, hfac]
  · simp [startDataSource, hfresh]
  · simp [setupDataSource, h0]

/-- C6 witness: a failed setup (unknown name) followed by a silent
start, and the fatal zero-session check, on concrete inputs. -/
theorem setup_failure_silent_witness :
    (alookup initProducerState.data_sources 5 = none ∧
      (⟨"no.such.source", 3, 0⟩ : DataSourceConfig).tracing_session_id ≠ 0 ∧
      ([ProcessStatsDescriptor].find?
        (fun d => decide (d.name = "no.such.source")) = none) ∧
      (⟨"x", 0, 0⟩ : DataSourceConfig).tracing_session_id = 0) ∧
    (setupDataSource [ProcessStatsDescriptor] (fun _ _ => some true)
        initProducerState 5 ⟨"no.such.source", 3, 0⟩ =
        some (initProducerState, []) ∧
      startDataSource initProducerState 5 ⟨"no.such.source", 3, 0⟩ =
        (initProducerState, []) ∧
      setupDataSource [ProcessStatsDescriptor] (fun _ _ => some true)
        initProducerState 5 ⟨"x", 0, 0⟩ = none) :=
  ⟨⟨rfl, by decide, by decide, rfl⟩,
    setup_failure_silent [ProcessStatsDescriptor] (fun _ _ => some true)
      initProducerState 5 ⟨"no.such.source", 3, 0⟩ ⟨"x", 0, 0⟩ rfl
      (by decide) (Or.inl (by decide)) rfl⟩

/-- C8 counterexample: a window of 0 ms *is* an integer multiple of the
polling interval, yet `SetMemoryLimit(1, 0)` trips the fatal check,
because `IsMultipleOf` also requires `number >= divisor`. -/
theorem limit_window_zero_counterexample :
    (0 : Nat) % kDefaultPollingInterval = 0 ∧
    (mkWatchdog kDefaultPollingInterval).setMemoryLimit 1 0 = none := by
  exact ⟨rfl, rfl⟩

/-- C8 (amended): for `SetMemoryLimit`/`SetCpuLimit` with a non-zero
limit, the window must be a *positive* integer multiple of the polling
interval — at least the interval and divisible by it — otherwise the
fatal check aborts; when it passes, the ring is reset to capacity
`window_ms / polling_interval_ms + 1` and the limit is stored. A zero
limit always passes, resets the ring to capacity 0 and disables the
check (`CheckMemory` never aborts with a zero limit). -/
theorem limit_window_check_amended
    (w1 : Watchdog) (bytesA winA : Nat) (hA1 : bytesA ≠ 0)
    (hA2 : isMultipleOf winA w1.polling_interval_ms = true)
    (w2 : Watchdog) (bytesB winB : Nat) (hB1 : bytesB ≠ 0)
    (hB2 : isMultipleOf winB w2.polling_interval_ms = false)
    (w3 : Watchdog) (winC rss : Nat)
    (w4 : Watchdog) (pctD winD : Nat) (hD0 : pctD ≤ 100) (hD1 : pctD ≠ 0)
    (hD2 : isMultipleOf winD w4.polling_interval_ms = true)
    (w5 : Watchdog) (pctE winE : Nat) (hE0 : pctE ≤ 100) (hE1 : pctE ≠ 0)
    (hE2 : isMultipleOf winE w5.polling_interval_ms = false)
    (w6 : Watchdog) (winF : Nat) :
    w1.setMemoryLimit bytesA winA =
      some { w1 with
        memory_window_bytes :=
          w1.memory_window_bytes.reset (winA / w1.polling_interval_ms + 1),
        memory_limit_bytes := bytesA } ∧
    w2.setMemoryLimit bytesB winB = none ∧
    (w3.setMemoryLimit 0 winC =
      some { w3 with
        memory_window_bytes := w3.memory_window_bytes.reset 0,
        memory_limit_bytes := 0 } ∧
      (({ w3 with
          memory_window_bytes := w3.memory_window_bytes.reset 0,
          memory_limit_bytes := 0 } : Watchdog).checkMemory rss).2 = false) ∧
    w4.setCpuLimit pctD winD =
      some { w4 with
        cpu_window_time_ticks :=
          w4.cpu_window_time_ticks.reset (winD / w4.polling_interval_ms + 1),
        cpu_limit_percentage := pctD } ∧
    w5.setCpuLimit pctE winE = none ∧
    w6.setCpuLimit 0 winF =
      some { w6 with
        cpu_window_time_ticks := w6.cpu_window_time_ticks.reset 0,
        cpu_limit_percentage := 0 } := by
  refine ⟨?_, ?_, ⟨?_, ?_⟩, ?_, ?_, ?_⟩
  · simp [Watchdog.setMemoryLimit, hA2, hA1]
  · simp [Watchdog.setMemoryLimit, hB2, hB1]
  · simp [Watchdog.setMemoryLimit]
  · simp [Watchdog.checkMemory]
  · simp [Watchdog.setCpuLimit, hD0, hD2, hD1]
  · simp [Watchdog.setCpuLimit, hE0, hE2, hE1]
  · simp [Watchdog.setCpuLimit]

/-- C8 witness: the amended limit-setter behaviour on concrete watchdogs
(interval 10 ms; windows 30 ms, 25 ms, 0 ms). -/
theorem limit_window_check_amended_witness :
    ((1 : Nat) ≠ 0 ∧ isMultipleOf 30 (mkWatchdog 10).polling_interval_ms = true ∧
      (2 : Nat) ≠ 0 ∧ isMultipleOf 25 (mkWatchdog 10).polling_interval_ms = false ∧
      (40 : Nat) ≤ 100 ∧ (40 : Nat) ≠ 0 ∧ (60 : Nat) ≤ 100 ∧ (60 : Nat) ≠ 0) ∧
    ((mkWatchdog 10).setMemoryLimit 1 30 =
      some { mkWatchdog 10 with
        memory_window_bytes :=
          (mkWatchdog 10).memory_window_bytes.reset
            (30 / (mkWatchdog 10).polling_interval_ms + 1),
        memory_limit_bytes := 1 } ∧
    (mkWatchdog 10).setMemoryLimit 2 25 = none ∧
    ((mkWatchdog 10).setMemoryLimit 0 7 =
      some { mkWatchdog 10 with
        memory_window_bytes := (mkWatchdog 10).memory_window_bytes.reset 0,
        memory_limit_bytes := 0 } ∧
      (({ mkWatchdog 10 with
            memory_window_bytes := (mkWatchdog 10).memory_window_bytes.reset 0,
            memory_limit_bytes := 0 } : Watchdog).checkMemory 9).2 = false) ∧
    (mkWatchdog 10).setCpuLimit 40 30 =
      some { mkWatchdog 10 with
        cpu_window_time_ticks :=
          (mkWatchdog 10).cpu_window_time_ticks.reset
            (30 / (mkWatchdog 10).polling_interval_ms + 1),
        cpu_limit_percentage := 40 } ∧
    (mkWatchdog 10).setCpuLimit 60 25 = none ∧
    (mkWatchdog 10).setCpuLimit 0 11 =
      some { mkWatchdog 10 with
        cpu_window_time_ticks := (mkWatchdog 10).cpu_window_time_ticks.reset 0,
        cpu_limit_percentage := 0 }) :=
  ⟨⟨by decide, by decide, by decide, by decide, by decide, by decide,
      by decide, by decide⟩,
    limit_window_check_amended (mkWatchdog 10) 1 30 (by decide) (by decide)
      (mkWatchdog 10) 2 25 (by decide) (by decide) (mkWatchdog 10) 7 9
      (mkWatchdog 10) 40 30 (by decide) (by decide) (by decide)
      (mkWatchdog 10) 60 25 (by decide) (by decide) (by decide)
      (mkWatchdog 10) 11⟩

/-- C9 counterexample: the watchdog worker can stop enforcing the limits
without the quit flag and without `SIGABRT`: it returns at once when the
initial `open("/proc/self/stat")` fails, and returns from its loop when
a `read` of the stat file fails. -/
theorem watchdog_thread_readfail_counterexample :
    threadMain 100 false (mkWatchdog kDefaultPollingInterval) [] =
      ThreadResult.openFailed ∧
    threadMain 100 true (mkWatchdog kDefaultPollingInterval)
        [WakeOutcome.readFail] =
      ThreadResult.returnedReadFail (mkWatchdog kDefaultPollingInterval) ∧
    (∀ w, ThreadResult.returnedReadFail (mkWatchdog kDefaultPollingInterval) ≠
      ThreadResult.abortedSigabrt w) ∧
    (∀ w, ThreadResult.returnedReadFail (mkWatchdog kDefaultPollingInterval) ≠
      ThreadResult.polling w) := by
  refine ⟨rfl, rfl, ?_, ?_⟩
  · intro w h
    exact ThreadResult.noConfusion h
  · intro w h
    exact ThreadResult.noConfusion h

/-- C9 (amended): provided the stat file opens and every wake-up reads
and parses a sample successfully (no quit signal, no I/O failure), the
worker either keeps polling or has raised `SIGABRT`; the paths outside
this dichotomy are the documented early returns on `open`/`read`
failure and the fatal parse check. -/
theorem watchdog_thread_exit_amended (ticks_per_second : Nat) (w0 : Watchdog)
    (wakes : List WakeOutcome)
    (h : ∀ e ∈ wakes, ∃ u s rp, e = WakeOutcome.sample u s rp) :
    (∃ w, threadMain ticks_per_second true w0 wakes =
      ThreadResult.polling w) ∨
    (∃ w, threadMain ticks_per_second true w0 wakes =
      ThreadResult.abortedSigabrt w) := by
  have hmain : threadMain ticks_per_second true w0 wakes =
      wakes.foldl (threadLoop ticks_per_second) (.polling w0) := rfl
  rw [hmain]
  exact threadFold_inv ticks_per_second wakes _ (Or.inl ⟨w0, rfl⟩) h

/-- C9 witness: the amended statement on a concrete one-sample trace. -/
theorem watchdog_thread_exit_amended_witness :
    (∀ e ∈ [WakeOutcome.sample 1 2 3], ∃ u s rp,
      e = WakeOutcome.sample u s rp) ∧
    ((∃ w, threadMain 100 true (mkWatchdog kDefaultPollingInterval)
        [WakeOutcome.sample 1 2 3] = ThreadResult.polling w) ∨
     (∃ w, threadMain 100 true (mkWatchdog kDefaultPollingInterval)
        [WakeOutcome.sample 1 2 3] = ThreadResult.abortedSigabrt w)) := by
  have hall : ∀ e ∈ [WakeOutcome.sample 1 2 3], ∃ u s rp,
      e = WakeOutcome.sample u s rp := by
    intro e he
    rcases List.mem_cons.1 he with h1 | h1
    · exact ⟨1, 2, 3, h1⟩
    · cases h1
  exact ⟨hall, watchdog_thread_exit_amended 100
    (mkWatchdog kDefaultPollingInterval) [WakeOutcome.sample 1 2 3] hall⟩

/-- C10: `SetCpuLimit` fatally checks `percentage <= 100` — an upper
bound the spec never states — so any call with a percentage above 100
aborts the process; under the precondition `percentage ≤ 100` that abort
branch is unreachable and the call aborts only on the window check. -/
theorem cpu_limit_percentage_cap (w w2 : Watchdog) (pct win pct2 win2 : Nat)
    (h : 100 < pct) (h2 : pct2 ≤ 100) :
    w.setCpuLimit pct win = none ∧
    (w2.setCpuLimit pct2 win2 = none ↔
      ¬ (isMultipleOf win2 w2.polling_interval_ms = true ∨ pct2 = 0)) := by
  constructor
  · simp only [Watchdog.setCpuLimit, Nat.not_le.2 h, if_false]
  · simp only [Watchdog.setCpuLimit, h2, if_true]
    by_cases hcond :
        (isMultipleOf win2 w2.polling_interval_ms || decide (pct2 = 0)) = true
    · rw [if_pos hcond]
      simp only [Bool.or_eq_true, decide_eq_true_eq] at hcond
      simp [hcond]
    · rw [if_neg hcond]
      simp only [Bool.or_eq_true, decide_eq_true_eq] at hcond
      simp [hcond]

/-- C10 witness: `SetCpuLimit(101, 0)` aborts; `SetCpuLimit(50, 60000)`
with the default 30 s interval aborts iff the window check fails (here
it passes). -/
theorem cpu_limit_percentage_cap_witness :
    ((100 : Nat) < 101 ∧ (50 : Nat) ≤ 100) ∧
    ((mkWatchdog kDefaultPollingInterval).setCpuLimit 101 0 = none ∧
      ((mkWatchdog kDefaultPollingInterval).setCpuLimit 50 60000 = none ↔
        ¬ (isMultipleOf 60000
            (mkWatchdog kDefaultPollingInterval).polling_interval_ms = true ∨
          (50 : Nat) = 0))) :=
  ⟨⟨by decide, by decide⟩,
    cpu_limit_percentage_cap (mkWatchdog kDefaultPollingInterval)
      (mkWatchdog kDefaultPollingInterval) 101 0 50 60000 (by decide)
      (by decide)⟩

/-! ## Registry coherence lemmas -/

theorem alookup_ne_none_of_mem_keys {β : Type} (m : List (Nat × β)) (k : Nat)
    (h : k ∈ m.map Prod.fst) : alookup m k ≠ none := by
  induction m with
  | nil => simp at h
  | cons hd t ih =>
    obtain ⟨k0, v0⟩ := hd
    by_cases hk : k0 = k
    · simp [alookup, hk]
    · simp only [List.map_cons, List.mem_cons] at h
      rcases h with h1 | h1
      · exact absurd h1.symm hk
      · simp only [alookup, hk, if_false]
        exact ih h1

theorem mmInsert_bucket_self (m : List (Nat × List (Nat × Nat))) (sid : Nat)
    (e : Nat × Nat) :
    (alookup (mmInsert m sid e) sid).getD [] = (alookup m sid).getD [] ++ [e] := by
  unfold mmInsert
  rw [alookup_aset_self]
  rfl

theorem mmInsert_lookup_ne (m : List (Nat × List (Nat × Nat))) (sid : Nat)
    (e : Nat × Nat) (sid' : Nat) (h : sid' ≠ sid) :
    alookup (mmInsert m sid e) sid' = alookup m sid' := by
  unfold mmInsert
  exact alookup_aset_ne m sid sid' _ h

theorem keysNodup_mmInsert (m : List (Nat × List (Nat × Nat))) (sid : Nat)
    (e : Nat × Nat) (h : keysNodup m) : keysNodup (mmInsert m sid e) :=
  keysNodup_aset m sid _ h

theorem mmEraseOne_bucket_self (m : List (Nat × List (Nat × Nat))) (sid : Nat)
    (e : Nat × Nat) (hnd : keysNodup m) (hm : e ∈ (alookup m sid).getD []) :
    (alookup (mmEraseOne m sid e) sid).getD [] =
      ((alookup m sid).getD []).erase e := by
  cases halo : alookup m sid with
  | none => rw [halo] at hm; simp at hm
  | some l =>
    have hm' : e ∈ l := by rw [halo] at hm; simpa using hm
    have hstep : mmEraseOne m sid e =
        if l.erase e = [] then aerase m sid else aset m sid (l.erase e) := by
      unfold mmEraseOne
      rw [halo]
      simp [hm']
    rw [hstep]
    simp only [Option.getD_some]
    by_cases hnil : l.erase e = []
    · rw [if_pos hnil, alookup_aerase_self m sid hnd, hnil]
      rfl
    · rw [if_neg hnil, alookup_aset_self]
      rfl

theorem mmEraseOne_lookup_ne (m : List (Nat × List (Nat × Nat))) (sid : Nat)
    (e : Nat × Nat) (sid' : Nat) (h : sid' ≠ sid) :
    alookup (mmEraseOne m sid e) sid' = alookup m sid' := by
  unfold mmEraseOne
  cases halo : alookup m sid with
  | none => rfl
  | some l =>
    by_cases hm : e ∈ l
    · simp only [hm, if_true]
      by_cases hnil : l.erase e = []
      · rw [if_pos hnil]
        exact alookup_aerase_ne m sid sid' h
      · rw [if_neg hnil]
        exact alookup_aset_ne m sid sid' _ h
    · simp [hm]

theorem keysNodup_mmEraseOne (m : List (Nat × List (Nat × Nat))) (sid : Nat)
    (e : Nat × Nat) (h : keysNodup m) : keysNodup (mmEraseOne m sid e) := by
  unfold mmEraseOne
  cases halo : alookup m sid with
  | none => exact h
  | some l =>
    by_cases hm : e ∈ l
    · simp only [hm, if_true]
      by_cases hnil : l.erase e = []
      · rw [if_pos hnil]
        exact keysNodup_aerase m sid h
      · rw [if_neg hnil]
        exact keysNodup_aset m sid _ h
    · simp [hm, h]

theorem refOkB_iff (st : ProducerState) (sid : Nat) (e : Nat × Nat) :
    refOkB st sid e = true ↔
      ∃ inst, alookup st.data_sources e.2 = some inst ∧
        inst.tracing_session_id = sid ∧ inst.descriptor = e.1 := by
  unfold refOkB
  cases h : alookup st.data_sources e.2 with
  | none => simp
  | some inst => simp

theorem sds_mem_of_bucket_mem (st : ProducerState) (sid : Nat) (e : Nat × Nat)
    (h : e ∈ bucketOf st sid) :
    (sid, bucketOf st sid) ∈ st.session_data_sources := by
  unfold bucketOf at h ⊢
  cases halo : alookup st.session_data_sources sid with
  | none => rw [halo] at h; simp at h
  | some l =>
    simpa using mem_of_alookup_eq_some _ _ _ halo

theorem setup_preserves (cat : List Descriptor)
    (factory : Descriptor → DataSourceConfig → Option Bool)
    (st st2 : ProducerState) (instance_id : Nat) (config : DataSourceConfig)
    (evs : List Event)
    (hwf : wfState st) (hco : coherent st)
    (hfresh : alookup st.data_sources instance_id = none)
    (hset : setupDataSource cat factory st instance_id config =
      some (st2, evs)) :
    wfState st2 ∧ coherent st2 := by
  have hkeys : instance_id ∉ st.data_sources.map Prod.fst :=
    fun hm => alookup_ne_none_of_mem_keys _ _ hm hfresh
  unfold setupDataSource at hset
  by_cases hsid : config.tracing_session_id = 0
  · rw [if_pos hsid] at hset
    cases hset
  · rw [if_neg hsid] at hset
    cases hfind : cat.find? (fun d => decide (d.name = config.name)) with
    | none =>
      simp only [hfind] at hset
      obtain ⟨h1, h2⟩ := Prod.mk.injEq .. ▸ Option.some.inj hset
      rw [← h1]
      exact ⟨hwf, hco⟩
    | some d =>
      cases hfac : factory d config with
      | none =>
        simp only [hfind, hfac] at hset
        obtain ⟨h1, h2⟩ := Prod.mk.injEq .. ▸ Option.some.inj hset
        rw [← h1]
        exact ⟨hwf, hco⟩
      | some od =>
        simp only [hfind, hfac] at hset
        obtain ⟨h1, h2⟩ := Prod.mk.injEq .. ▸ Option.some.inj hset
        subst h1
        set sid := config.tracing_session_id with hsiddef
        set inst : ProbesDataSource :=
          { descriptor := d.key, tracing_session_id := sid, started := false,
            rename_pids := [], pids := [], inode_and_device := [],
            on_demand_dumps_enabled := od } with hinst
        -- notation for the two new indices
        have hds2 : aset st.data_sources instance_id inst =
            st.data_sources ++ [(instance_id, inst)] :=
          aset_of_not_mem_keys _ _ _ hkeys
        have hnotin : (d.key, instance_id) ∉ bucketOf st sid := by
          intro hmem
          have hq := sds_mem_of_bucket_mem st sid _ hmem
          have hr := (refOkB_iff st sid (d.key, instance_id)).1
            (hco.2 _ hq _ hmem)
          obtain ⟨i0, hi0, _, _⟩ := hr
          rw [hfresh] at hi0
          cases hi0
        constructor
        · refine ⟨keysNodup_aset _ _ _ hwf.1, keysNodup_mmInsert _ _ _ hwf.2.1,
            hwf.2.2⟩
        · constructor
          · -- every owned instance appears exactly once in its bucket
            intro p hp
            simp only at hp
            rw [hds2] at hp
            have hb_self :
                bucketOf { st with
                  session_data_sources :=
                    mmInsert st.session_data_sources sid (d.key, instance_id),
                  data_sources := aset st.data_sources instance_id inst } sid =
                  bucketOf st sid ++ [(d.key, instance_id)] :=
              mmInsert_bucket_self st.session_data_sources sid _
            rcases List.mem_append.1 hp with hp1 | hp1
            · have hcount := hco.1 p hp1
              have hpne : p.1 ≠ instance_id := by
                intro he
                exact hkeys (List.mem_map.2 ⟨p, hp1, he⟩)
              by_cases hs : p.2.tracing_session_id = sid
              · rw [show bucketOf { st with
                    session_data_sources :=
                      mmInsert st.session_data_sources sid (d.key, instance_id),
                    data_sources := aset st.data_sources instance_id inst }
                      p.2.tracing_session_id =
                    bucketOf st sid ++ [(d.key, instance_id)] from hs ▸ hb_self]
                rw [List.count_append]
                have hz : ((p.2.descriptor, p.1)) ∉ [(d.key, instance_id)] := by
                  intro hmem
                  rcases List.mem_singleton.1 hmem with hmm
                  exact hpne (congrArg Prod.snd hmm)
                rw [List.count_eq_zero.2 hz]
                rw [hs] at hcount
                omega
              · have hb_ne :
                    bucketOf { st with
                      session_data_sources :=
                        mmInsert st.session_data_sources sid (d.key, instance_id),
                      data_sources := aset st.data_sources instance_id inst }
                        p.2.tracing_session_id =
                      bucketOf st p.2.tracing_session_id := by
                  unfold bucketOf
                  rw [mmInsert_lookup_ne _ _ _ _ hs]
                rw [hb_ne]
                exact hcount
            · rcases List.mem_singleton.1 hp1 with hmm
              subst hmm
              have hb_self :
                  bucketOf { st with
                    session_data_sources :=
                      mmInsert st.session_data_sources sid (d.key, instance_id),
                    data_sources := aset st.data_sources instance_id inst }
                      sid =
                    bucketOf st sid ++ [(d.key, instance_id)] :=
                mmInsert_bucket_self st.session_data_sources sid _
              simp only
              rw [hb_self, List.count_append, List.count_eq_zero.2 hnotin]
              simp
          · -- every bucket entry refers back to an owned instance
            intro q hq e he
            simp only at hq
            have hq' := (mem_aset_nodup st.session_data_sources sid _ q
              hwf.2.1).1 hq
            rcases hq' with hq1 | ⟨hq1, hq2⟩
            · subst hq1
              simp only at he
              rcases List.mem_append.1 he with he1 | he1
              · have hq0 := sds_mem_of_bucket_mem st sid e
                  (by simpa [bucketOf] using he1)
                have hr := (refOkB_iff st sid e).1 (hco.2 _ hq0 e
                  (by simpa [bucketOf] using he1))
                obtain ⟨i0, hi0, hi1, hi2⟩ := hr
                have hene : e.2 ≠ instance_id := by
                  intro hee
                  rw [hee, hfresh] at hi0
                  cases hi0
                refine (refOkB_iff _ _ _).2 ⟨i0, ?_, hi1, hi2⟩
                simp only
                rw [alookup_aset_ne _ _ _ _ hene]
                exact hi0
              · rcases List.mem_singleton.1 he1 with hmm
                subst hmm
                refine (refOkB_iff _ _ _).2 ⟨inst, ?_, rfl, rfl⟩
                simp only
                rw [alookup_aset_self]
            · have hr := (refOkB_iff st q.1 e).1 (hco.2 q hq1 e he)
              obtain ⟨i0, hi0, hi1, hi2⟩ := hr
              have hene : e.2 ≠ instance_id := by
                intro hee
                rw [hee, hfresh] at hi0
                cases hi0
              refine (refOkB_iff _ _ _).2 ⟨i0, ?_, hi1, hi2⟩
              simp only
              rw [alookup_aset_ne _ _ _ _ hene]
              exact hi0

theorem stop_preserves (st : ProducerState) (id2 : Nat)
    (ds2 : ProbesDataSource)
    (hwf : wfState st) (hco : coherent st)
    (hid2 : alookup st.data_sources id2 = some ds2) :
    wfState (stopDataSource st id2).1 ∧ coherent (stopDataSource st id2).1 ∧
    alookup (stopDataSource st id2).1.data_sources id2 = none ∧
    alookup (stopDataSource st id2).1.watchdogs id2 = none ∧
    (bucketOf (stopDataSource st id2).1 ds2.tracing_session_id).count
      (ds2.descriptor, id2) = 0 := by
  have hmem : (id2, ds2) ∈ st.data_sources := mem_of_alookup_eq_some _ _ _ hid2
  have hcount1 : (bucketOf st ds2.tracing_session_id).count
      (ds2.descriptor, id2) = 1 := hco.1 (id2, ds2) hmem
  have hbmem : (ds2.descriptor, id2) ∈ bucketOf st ds2.tracing_session_id :=
    List.count_pos_iff.1 (by omega)
  have hnotin2 : (ds2.descriptor, id2) ∉
      (bucketOf st ds2.tracing_session_id).erase (ds2.descriptor, id2) := by
    rw [← List.count_eq_zero, List.count_erase_self, hcount1]
  have hstop : stopDataSource st id2 =
      ({ st with
          data_sources := aerase st.data_sources id2,
          session_data_sources :=
            mmEraseOne st.session_data_sources ds2.tracing_session_id
              (ds2.descriptor, id2),
          watchdogs := aerase st.watchdogs id2 },
        (if ds2.descriptor = MetatraceDescriptor.key then [Event.dsFlush id2 0]
         else []) ++ [Event.notifyDataSourceStopped id2]) := by
    unfold stopDataSource
    rw [hid2]
  rw [hstop]
  have hbs :
      bucketOf { st with
        data_sources := aerase st.data_sources id2,
        session_data_sources :=
          mmEraseOne st.session_data_sources ds2.tracing_session_id
            (ds2.descriptor, id2),
        watchdogs := aerase st.watchdogs id2 } ds2.tracing_session_id =
      (bucketOf st ds2.tracing_session_id).erase (ds2.descriptor, id2) :=
    mmEraseOne_bucket_self st.session_data_sources ds2.tracing_session_id _
      hwf.2.1 hbmem
  have hbs_ne : ∀ sid', sid' ≠ ds2.tracing_session_id →
      bucketOf { st with
        data_sources := aerase st.data_sources id2,
        session_data_sources :=
          mmEraseOne st.session_data_sources ds2.tracing_session_id
            (ds2.descriptor, id2),
        watchdogs := aerase st.watchdogs id2 } sid' = bucketOf st sid' := by
    intro sid' hne
    unfold bucketOf
    rw [mmEraseOne_lookup_ne _ _ _ _ hne]
  have halo : alookup st.session_data_sources ds2.tracing_session_id =
      some (bucketOf st ds2.tracing_session_id) := by
    unfold bucketOf at hbmem ⊢
    cases h : alookup st.session_data_sources ds2.tracing_session_id with
    | none => rw [h] at hbmem; simp at hbmem
    | some l => simp
  have hstep2 : mmEraseOne st.session_data_sources ds2.tracing_session_id
        (ds2.descriptor, id2) =
      if (bucketOf st ds2.tracing_session_id).erase (ds2.descriptor, id2) = []
      then aerase st.session_data_sources ds2.tracing_session_id
      else aset st.session_data_sources ds2.tracing_session_id
        ((bucketOf st ds2.tracing_session_id).erase (ds2.descriptor, id2)) := by
    unfold mmEraseOne
    rw [halo]
    simp [hbmem]
  refine ⟨⟨keysNodup_aerase _ _ hwf.1, keysNodup_mmEraseOne _ _ _ hwf.2.1,
      keysNodup_aerase _ _ hwf.2.2⟩, ⟨?_, ?_⟩,
    alookup_aerase_self _ _ hwf.1, alookup_aerase_self _ _ hwf.2.2, ?_⟩
  · -- count condition
    intro p hp
    simp only at hp
    have hp' := (mem_aerase_nodup st.data_sources id2 p hwf.1).1 hp
    have hcnt := hco.1 p hp'.1
    have hpne : (p.2.descriptor, p.1) ≠ (ds2.descriptor, id2) := by
      intro he
      exact hp'.2 (congrArg Prod.snd he)
    by_cases hs : p.2.tracing_session_id = ds2.tracing_session_id
    · rw [show bucketOf { st with
          data_sources := aerase st.data_sources id2,
          session_data_sources :=
            mmEraseOne st.session_data_sources ds2.tracing_session_id
              (ds2.descriptor, id2),
          watchdogs := aerase st.watchdogs id2 } p.2.tracing_session_id =
          (bucketOf st ds2.tracing_session_id).erase (ds2.descriptor, id2)
        from hs ▸ hbs]
      rw [List.count_erase_of_ne hpne]
      rw [hs] at hcnt
      exact hcnt
    · rw [hbs_ne _ hs]
      exact hcnt
  · -- back-reference condition
    intro q hq e he
    simp only at hq he
    rw [hstep2] at hq
    -- lifting an old back-reference whose target is not the erased instance
    have hlift : ∀ sidq : Nat, e ∈ bucketOf st sidq → e.2 ≠ id2 →
        refOkB { st with
          data_sources := aerase st.data_sources id2,
          session_data_sources :=
            mmEraseOne st.session_data_sources ds2.tracing_session_id
              (ds2.descriptor, id2),
          watchdogs := aerase st.watchdogs id2 } sidq e = true := by
      intro sidq hmem' hene
      have hq0' := sds_mem_of_bucket_mem st sidq e hmem'
      obtain ⟨i0, hi0, hi1, hi2⟩ :=
        (refOkB_iff st sidq e).1 (hco.2 _ hq0' e hmem')
      refine (refOkB_iff _ _ _).2 ⟨i0, ?_, hi1, hi2⟩
      simp only
      rw [alookup_aerase_ne _ _ _ hene]
      exact hi0
    by_cases hnil :
        (bucketOf st ds2.tracing_session_id).erase (ds2.descriptor, id2) = []
    · rw [if_pos hnil] at hq
      have hq' := (mem_aerase_nodup st.session_data_sources _ q hwf.2.1).1 hq
      have hbq : e ∈ bucketOf st q.1 := by
        obtain ⟨a, b⟩ := q
        show e ∈ (alookup st.session_data_sources a).getD []
        rw [alookup_eq_some_of_mem _ a b hwf.2.1 hq'.1]
        exact he
      have hene : e.2 ≠ id2 := by
        intro he2
        obtain ⟨i0, hi0, hi1, hi2⟩ := (refOkB_iff st q.1 e).1
          (hco.2 q hq'.1 e he)
        rw [he2, hid2] at hi0
        cases Option.some.inj hi0
        exact hq'.2 hi1.symm
      exact hlift q.1 hbq hene
    · rw [if_neg hnil] at hq
      have hq' := (mem_aset_nodup st.session_data_sources _ _ q hwf.2.1).1 hq
      rcases hq' with hq1 | ⟨hq1, hq2⟩
      · subst hq1
        simp only at he ⊢
        have hbq : e ∈ bucketOf st ds2.tracing_session_id :=
          List.mem_of_mem_erase he
        have hene : e.2 ≠ id2 := by
          intro he2
          obtain ⟨i0, hi0, hi1, hi2⟩ :=
            (refOkB_iff st ds2.tracing_session_id e).1
              (hco.2 _ (mem_of_alookup_eq_some _ _ _ halo) e hbq)
          rw [he2, hid2] at hi0
          cases Option.some.inj hi0
          have hee : e = (ds2.descriptor, id2) := by
            rw [hi2, ← he2]
          exact hnotin2 (hee ▸ he)
        exact hlift ds2.tracing_session_id hbq hene
      · have hbq : e ∈ bucketOf st q.1 := by
          obtain ⟨a, b⟩ := q
          show e ∈ (alookup st.session_data_sources a).getD []
          rw [alookup_eq_some_of_mem _ a b hwf.2.1 hq1]
          exact he
        have hene : e.2 ≠ id2 := by
          intro he2
          obtain ⟨i0, hi0, hi1, hi2⟩ := (refOkB_iff st q.1 e).1
            (hco.2 q hq1 e he)
          rw [he2, hid2] at hi0
          cases Option.some.inj hi0
          exact hq2 hi1.symm
        exact hlift q.1 hbq hene
  · -- the stopped instance's bucket entry count drops to zero
    rw [hbs, List.count_erase_self, hcount1]

/-- C5: registry coherence — every owned instance appears exactly once in
its session's bucket under its descriptor key and every bucket entry
refers back to an owned instance of that session and descriptor — holds
of the initial state and is preserved by `SetupDataSource` (under its
documented fresh-id precondition) and by `StopDataSource`, which also
removes the instance from both indices and drops its fatal timer. -/
theorem registry_coherence_preserved (cat : List Descriptor)
    (factory : Descriptor → DataSourceConfig → Option Bool)
    (st st2 : ProducerState) (instance_id id2 : Nat)
    (config : DataSourceConfig) (evs : List Event) (ds2 : ProbesDataSource)
    (hwf : wfState st) (hco : coherent st)
    (hfresh : alookup st.data_sources instance_id = none)
    (hset : setupDataSource cat factory st instance_id config =
      some (st2, evs))
    (hid2 : alookup st.data_sources id2 = some ds2) :
    (wfState st2 ∧ coherent st2) ∧
    (wfState (stopDataSource st id2).1 ∧ coherent (stopDataSource st id2).1 ∧
      alookup (stopDataSource st id2).1.data_sources id2 = none ∧
      alookup (stopDataSource st id2).1.watchdogs id2 = none ∧
      (bucketOf (stopDataSource st id2).1 ds2.tracing_session_id).count
        (ds2.descriptor, id2) = 0) ∧
    (wfState initProducerState ∧ coherent initProducerState) :=
  ⟨setup_preserves cat factory st st2 instance_id config evs hwf hco hfresh
      hset,
    stop_preserves st id2 ds2 hwf hco hid2,
    by constructor <;> first | exact ⟨by decide, by decide, by decide⟩ |
      exact ⟨by decide, by decide⟩⟩

/-- C5 witness: the preservation statement on a concrete coherent
registry (instance 9 in session 3), a successful setup of instance 5 and
a stop of instance 9. -/
theorem registry_coherence_preserved_witness :
    (wfState c5DemoState ∧ coherent c5DemoState ∧
      alookup c5DemoState.data_sources 5 = none ∧
      setupDataSource [ProcessStatsDescriptor] (fun _ _ => some false)
        c5DemoState 5 ⟨"linux.process_stats", 3, 0⟩ = some (c5DemoAfter, []) ∧
      alookup c5DemoState.data_sources 9 =
        some (demoDataSource ProcessStatsDescriptor.key 3)) ∧
    ((wfState c5DemoAfter ∧ coherent c5DemoAfter) ∧
      (wfState (stopDataSource c5DemoState 9).1 ∧
        coherent (stopDataSource c5DemoState 9).1 ∧
        alookup (stopDataSource c5DemoState 9).1.data_sources 9 = none ∧
        alookup (stopDataSource c5DemoState 9).1.watchdogs 9 = none ∧
        (bucketOf (stopDataSource c5DemoState 9).1
          (demoDataSource ProcessStatsDescriptor.key 3).tracing_session_id).count
            ((demoDataSource ProcessStatsDescriptor.key 3).descriptor, 9) = 0) ∧
      (wfState initProducerState ∧ coherent initProducerState)) :=
  ⟨⟨by decide, by decide, by decide, by decide, by decide⟩,
    registry_coherence_preserved [ProcessStatsDescriptor]
      (fun _ _ => some false) c5DemoState c5DemoAfter 5 9
      ⟨"linux.process_stats", 3, 0⟩ [] (demoDataSource ProcessStatsDescriptor.key 3)
      (by decide) (by decide) (by decide) (by decide) (by decide)⟩

/-! ## Metadata-broadcast lemmas -/

theorem clearMetadata_idem (ds : ProbesDataSource) :
    clearMetadata (clearMetadata ds) = clearMetadata ds := rfl

theorem isEmpty_false_of_ne_nil {α : Type} (l : List α) (h : l ≠ []) :
    l.isEmpty = false := by
  cases l with
  | nil => exact absurd rfl h
  | cons x t => rfl

theorem metaOnly_refl (d : List (Nat × ProbesDataSource)) : metaOnly d d :=
  fun _ => Or.inl rfl

theorem metaOnly_flags (orig cur : List (Nat × ProbesDataSource)) (k : Nat)
    (inst : ProbesDataSource) (h : metaOnly orig cur)
    (hl : alookup orig k = some inst) :
    ∃ inst', alookup cur k = some inst' ∧ inst'.started = inst.started ∧
      inst'.on_demand_dumps_enabled = inst.on_demand_dumps_enabled := by
  rcases h k with h1 | h1
  · exact ⟨inst, by rw [h1, hl], rfl, rfl⟩
  · refine ⟨clearMetadata inst, ?_, rfl, rfl⟩
    rw [h1, hl]
    rfl

theorem metaOnly_processFtraceEntry (orig : List (Nat × ProbesDataSource))
    (bucket : List (Nat × Nat))
    (acc : List (Nat × ProbesDataSource) × List Event) (e : Nat × Nat)
    (h : metaOnly orig acc.1) :
    metaOnly orig (processFtraceEntry bucket acc e).1 := by
  unfold processFtraceEntry
  cases hf : alookup acc.1 e.2 with
  | none => exact h
  | some f =>
    by_cases hs : f.started = true
    · simp only [hs, if_true]
      intro k
      by_cases hk : k = e.2
      · subst hk
        rw [alookup_aset_self]
        rcases h e.2 with h1 | h1
        · rw [h1] at hf
          right
          rw [hf, Option.map_some']
        · rw [h1] at hf
          cases horig : alookup orig e.2 with
          | none =>
            rw [horig] at hf
            simp at hf
          | some g =>
            rw [horig, Option.map_some'] at hf
            have hfg : f = clearMetadata g := (Option.some.inj hf).symm
            right
            rw [Option.map_some', hfg, clearMetadata_idem]
      · rw [alookup_aset_ne _ _ _ _ hk]
        exact h k
    · simp [hs]
      exact h

theorem metaOnly_foldl_entries (orig : List (Nat × ProbesDataSource))
    (bucket : List (Nat × Nat)) (l : List (Nat × Nat)) :
    ∀ acc : List (Nat × ProbesDataSource) × List Event, metaOnly orig acc.1 →
      metaOnly orig (l.foldl (processFtraceEntry bucket) acc).1 := by
  induction l with
  | nil => intro acc h; exact h
  | cons e t ih =>
    intro acc h
    exact ih _ (metaOnly_processFtraceEntry orig bucket acc e h)

theorem metaOnly_foldl_sessions (orig : List (Nat × ProbesDataSource))
    (sl : List (Nat × List (Nat × Nat))) :
    ∀ acc : List (Nat × ProbesDataSource) × List Event, metaOnly orig acc.1 →
      metaOnly orig (sl.foldl processSession acc).1 := by
  induction sl with
  | nil => intro acc h; exact h
  | cons sess t ih =>
    intro acc h
    exact ih _ (metaOnly_foldl_entries orig sess.2 (ftraceEntriesOf sess.2)
      acc h)

theorem processFtraceEntry_lookup_ne (bucket : List (Nat × Nat))
    (acc : List (Nat × ProbesDataSource) × List Event) (e : Nat × Nat)
    (fid : Nat) (hne : e.2 ≠ fid) :
    alookup (processFtraceEntry bucket acc e).1 fid = alookup acc.1 fid := by
  unfold processFtraceEntry
  cases hf : alookup acc.1 e.2 with
  | none => rfl
  | some f =>
    by_cases hs : f.started = true
    · simp only [hs, if_true]
      exact alookup_aset_ne _ _ _ _ (Ne.symm hne)
    · simp [hs]

theorem foldl_entries_lookup_ne (bucket : List (Nat × Nat)) (fid : Nat)
    (l : List (Nat × Nat)) (hl : ∀ x ∈ l, x.2 ≠ fid) :
    ∀ acc : List (Nat × ProbesDataSource) × List Event,
      alookup (l.foldl (processFtraceEntry bucket) acc).1 fid =
        alookup acc.1 fid := by
  induction l with
  | nil => intro acc; rfl
  | cons e t ih =>
    intro acc
    have h1 := hl e (List.mem_cons.2 (Or.inl rfl))
    have h2 : ∀ x ∈ t, x.2 ≠ fid :=
      fun x hx => hl x (List.mem_cons.2 (Or.inr hx))
    rw [List.foldl_cons, ih h2, processFtraceEntry_lookup_ne bucket acc e fid h1]

theorem foldl_sessions_lookup_ne (fid : Nat)
    (sl : List (Nat × List (Nat × Nat)))
    (hl : ∀ k ∈ allFtraceRefs sl, k ≠ fid) :
    ∀ acc : List (Nat × ProbesDataSource) × List Event,
      alookup (sl.foldl processSession acc).1 fid = alookup acc.1 fid := by
  induction sl with
  | nil => intro acc; rfl
  | cons sess t ih =>
    intro acc
    have hsess : ∀ x ∈ ftraceEntriesOf sess.2, x.2 ≠ fid := by
      intro x hx
      exact hl x.2 (mem_cmap _ _ sess x.2 (List.mem_cons.2 (Or.inl rfl))
        (List.mem_map.2 ⟨x, hx, rfl⟩))
    have ht : ∀ k ∈ allFtraceRefs t, k ≠ fid := by
      intro k hk
      refine hl k ?_
      unfold allFtraceRefs at hk ⊢
      simp only [cmap]
      exact List.mem_append.2 (Or.inr hk)
    rw [List.foldl_cons, ih ht]
    exact foldl_entries_lookup_ne sess.2 fid (ftraceEntriesOf sess.2) hsess acc

theorem processFtraceEntry_events (bucket : List (Nat × Nat))
    (d : List (Nat × ProbesDataSource)) (evs : List Event) (e : Nat × Nat) :
    processFtraceEntry bucket (d, evs) e =
      ((processFtraceEntry bucket (d, []) e).1,
        evs ++ (processFtraceEntry bucket (d, []) e).2) := by
  unfold processFtraceEntry
  cases hf : alookup d e.2 with
  | none => simp
  | some f =>
    by_cases hs : f.started = true
    · simp [hs]
    · simp [hs]

theorem foldl_entries_events (bucket : List (Nat × Nat))
    (l : List (Nat × Nat)) :
    ∀ (d : List (Nat × ProbesDataSource)) (evs : List Event),
      l.foldl (processFtraceEntry bucket) (d, evs) =
        ((l.foldl (processFtraceEntry bucket) (d, [])).1,
          evs ++ (l.foldl (processFtraceEntry bucket) (d, [])).2) := by
  induction l with
  | nil => intro d evs; simp
  | cons e t ih =>
    intro d evs
    rw [List.foldl_cons, List.foldl_cons,
      processFtraceEntry_events bucket d evs e]
    cases hpe : processFtraceEntry bucket (d, []) e with
    | mk d1 e1 =>
      rw [ih d1 (evs ++ e1), ih d1 e1]
      simp

theorem processSession_events (sess : Nat × List (Nat × Nat))
    (d : List (Nat × ProbesDataSource)) (evs : List Event) :
    processSession (d, evs) sess =
      ((processSession (d, []) sess).1,
        evs ++ (processSession (d, []) sess).2) := by
  unfold processSession
  exact foldl_entries_events sess.2 (ftraceEntriesOf sess.2) d evs

theorem foldl_sessions_events (sl : List (Nat × List (Nat × Nat))) :
    ∀ (d : List (Nat × ProbesDataSource)) (evs : List Event),
      sl.foldl processSession (d, evs) =
        ((sl.foldl processSession (d, [])).1,
          evs ++ (sl.foldl processSession (d, [])).2) := by
  induction sl with
  | nil => intro d evs; simp
  | cons sess t ih =>
    intro d evs
    rw [List.foldl_cons, List.foldl_cons, processSession_events sess d evs]
    cases hps : processSession (d, []) sess with
    | mk d1 e1 =>
      rw [ih d1 (evs ++ e1), ih d1 e1]
      simp

theorem cmap_decompose {α β : Type} (f : α → List β) (l : List α) (x : α)
    (hx : x ∈ l) : ∃ l1 l2, cmap f l = l1 ++ (f x ++ l2) := by
  obtain ⟨s, t, hst⟩ := List.append_of_mem hx
  subst hst
  refine ⟨cmap f s, cmap f t, ?_⟩
  rw [cmap_append]
  rfl

theorem processFtraceEntry_hit (bucket : List (Nat × Nat))
    (d : List (Nat × ProbesDataSource)) (evs : List Event) (e : Nat × Nat)
    (f : ProbesDataSource) (hf : alookup d e.2 = some f)
    (hs : f.started = true) :
    processFtraceEntry bucket (d, evs) e =
      (aset d e.2 (clearMetadata f),
        evs ++ (psEventsFor d f.rename_pids f.pids bucket ++
          inoEventsFor d f.inode_and_device bucket)) := by
  unfold processFtraceEntry
  rw [hf]
  simp [hs, List.append_assoc]

theorem psEventAt_hit (d : List (Nat × ProbesDataSource))
    (rename seen : List Nat) (psId : Nat) (ps : ProbesDataSource)
    (hl : alookup d psId = some ps) (hs : ps.started = true)
    (ho : ps.on_demand_dumps_enabled = true) (hrn : rename ≠ [])
    (hpn : seen ≠ []) :
    psEventAt d rename seen (ProcessStatsDescriptor.key, psId) =
      [Event.onRenamePids psId rename, Event.onPids psId seen] := by
  unfold psEventAt
  rw [show ((ProcessStatsDescriptor.key, psId) : Nat × Nat).2 = psId from rfl,
    hl]
  simp [hs, ho, isEmpty_false_of_ne_nil _ hrn, isEmpty_false_of_ne_nil _ hpn]

theorem psEventsFor_decompose (d : List (Nat × ProbesDataSource))
    (rename seen : List Nat) (bucket : List (Nat × Nat)) (psId : Nat)
    (ps : ProbesDataSource)
    (hb : (ProcessStatsDescriptor.key, psId) ∈ bucket)
    (hl : alookup d psId = some ps) (hs : ps.started = true)
    (ho : ps.on_demand_dumps_enabled = true) (hrn : rename ≠ [])
    (hpn : seen ≠ []) :
    ∃ l1 l2, psEventsFor d rename seen bucket =
      l1 ++ (Event.onRenamePids psId rename ::
        Event.onPids psId seen :: l2) := by
  have hbf : (ProcessStatsDescriptor.key, psId) ∈
      bucket.filter (fun e => decide (e.1 = ProcessStatsDescriptor.key)) :=
    List.mem_filter.2 ⟨hb, by simp⟩
  obtain ⟨l1, l2, hdec⟩ :=
    cmap_decompose (psEventAt d rename seen) _ _ hbf
  refine ⟨l1, l2, ?_⟩
  unfold psEventsFor
  rw [hdec, psEventAt_hit d rename seen psId ps hl hs ho hrn hpn]
  simp

theorem inoEventsFor_mem (d : List (Nat × ProbesDataSource))
    (inodes : List (Nat × Nat)) (bucket : List (Nat × Nat)) (inoId : Nat)
    (ino : ProbesDataSource)
    (hb : (InodeFileDescriptor.key, inoId) ∈ bucket)
    (hl : alookup d inoId = some ino) (hs : ino.started = true) :
    Event.onInodes inoId inodes ∈ inoEventsFor d inodes bucket := by
  unfold inoEventsFor
  refine mem_cmap _ _ (InodeFileDescriptor.key, inoId) _
    (List.mem_filter.2 ⟨hb, by simp⟩) ?_
  unfold inoEventAt
  rw [show ((InodeFileDescriptor.key, inoId) : Nat × Nat).2 = inoId from rfl,
    hl]
  simp [hs]

theorem processFtraceEntry_hit_ft (bucket : List (Nat × Nat))
    (d : List (Nat × ProbesDataSource)) (evs : List Event) (fid : Nat)
    (f : ProbesDataSource) (hf : alookup d fid = some f)
    (hs : f.started = true) :
    processFtraceEntry bucket (d, evs) (FtraceDescriptor.key, fid) =
      (aset d fid (clearMetadata f),
        evs ++ (psEventsFor d f.rename_pids f.pids bucket ++
          inoEventsFor d f.inode_and_device bucket)) := by
  unfold processFtraceEntry
  rw [show ((FtraceDescriptor.key, fid) : Nat × Nat).2 = fid from rfl, hf]
  simp [hs, List.append_assoc]

/-- C7: on each ftrace write batch, for every tracing session and every
started ftrace data source in it (referenced exactly once across the
session index): rename pids are delivered strictly before seen pids to
every started process-stats data source with on-demand dumps enabled in
the same session (when both sets are non-empty, mirroring the source's
emptiness gates), the inode+device pairs are delivered to every started
inode-file data source in the same session, and the ftrace data source's
accumulated metadata is cleared afterwards. -/
theorem ftrace_metadata_broadcast
    (st : ProducerState) (sid : Nat) (bucket : List (Nat × Nat))
    (fid psId inoId : Nat) (f ps ino : ProbesDataSource)
    (hmem : (sid, bucket) ∈ st.session_data_sources)
    (hfb : (FtraceDescriptor.key, fid) ∈ bucket)
    (hcount : (allFtraceRefs st.session_data_sources).count fid = 1)
    (hf : alookup st.data_sources fid = some f) (hfs : f.started = true)
    (hps : (ProcessStatsDescriptor.key, psId) ∈ bucket)
    (hpsl : alookup st.data_sources psId = some ps) (hpss : ps.started = true)
    (hpso : ps.on_demand_dumps_enabled = true)
    (hrn : f.rename_pids ≠ []) (hpn : f.pids ≠ [])
    (hino : (InodeFileDescriptor.key, inoId) ∈ bucket)
    (hinol : alookup st.data_sources inoId = some ino)
    (hinos : ino.started = true) :
    (∃ l1 l2, (onFtraceDataWrittenIntoDataSourceBuffers st).2 =
      l1 ++ (Event.onRenamePids psId f.rename_pids ::
        Event.onPids psId f.pids :: l2)) ∧
    Event.onInodes inoId f.inode_and_device ∈
      (onFtraceDataWrittenIntoDataSourceBuffers st).2 ∧
    alookup (onFtraceDataWrittenIntoDataSourceBuffers st).1.data_sources fid =
      some (clearMetadata f) := by
  obtain ⟨S1, S2, hS⟩ := List.append_of_mem hmem
  have hfbf : (FtraceDescriptor.key, fid) ∈ ftraceEntriesOf bucket :=
    List.mem_filter.2 ⟨hfb, by simp⟩
  obtain ⟨F1, F2, hF⟩ := List.append_of_mem hfbf
  -- every other ftrace reference differs from fid
  rw [hS] at hcount
  unfold allFtraceRefs at hcount
  rw [cmap_append] at hcount
  simp [cmap, hF, List.map_append, List.map_cons, List.count_append,
    List.count_cons] at hcount
  have hzS1 : (allFtraceRefs S1).count fid = 0 := by
    unfold allFtraceRefs
    omega
  have hzS2 : (allFtraceRefs S2).count fid = 0 := by
    unfold allFtraceRefs
    omega
  have hzF1 : (F1.map Prod.snd).count fid = 0 := by omega
  have hzF2 : (F2.map Prod.snd).count fid = 0 := by omega
  have hneS1 : ∀ k ∈ allFtraceRefs S1, k ≠ fid := by
    intro k hk he
    subst he
    exact (List.count_eq_zero.1 hzS1) hk
  have hneS2 : ∀ k ∈ allFtraceRefs S2, k ≠ fid := by
    intro k hk he
    subst he
    exact (List.count_eq_zero.1 hzS2) hk
  have hneF1 : ∀ x ∈ F1, x.2 ≠ fid := by
    intro x hx he
    exact (List.count_eq_zero.1 hzF1) (List.mem_map.2 ⟨x, hx, he⟩)
  have hneF2 : ∀ x ∈ F2, x.2 ≠ fid := by
    intro x hx he
    exact (List.count_eq_zero.1 hzF2) (List.mem_map.2 ⟨x, hx, he⟩)
  -- expose the two folds and cut them at the hit entry
  simp only [onFtraceDataWrittenIntoDataSourceBuffers]
  rw [hS, List.foldl_append, List.foldl_cons]
  cases hP1 : List.foldl processSession (st.data_sources, ([] : List Event)) S1 with
  | mk d1 evs1 =>
    have hl1 : alookup d1 fid = some f := by
      have h0 := foldl_sessions_lookup_ne fid S1 hneS1 (st.data_sources, [])
      rw [hP1] at h0
      rw [← hf]
      exact h0
    have hm1 : metaOnly st.data_sources d1 := by
      have h0 := metaOnly_foldl_sessions st.data_sources S1
        (st.data_sources, []) (metaOnly_refl _)
      rw [hP1] at h0
      exact h0
    have hsess : processSession (d1, evs1) (sid, bucket) =
        List.foldl (processFtraceEntry bucket) (d1, evs1)
          (F1 ++ (FtraceDescriptor.key, fid) :: F2) := by
      unfold processSession
      rw [show ((sid, bucket) : Nat × List (Nat × Nat)).2 = bucket from rfl,
        hF]
    rw [hsess, List.foldl_append, List.foldl_cons]
    cases hP2 : List.foldl (processFtraceEntry bucket) (d1, evs1) F1 with
    | mk d2 evs2 =>
      have hl2 : alookup d2 fid = some f := by
        have h0 := foldl_entries_lookup_ne bucket fid F1 hneF1 (d1, evs1)
        rw [hP2] at h0
        rw [← hl1]
        exact h0
      have hm2 : metaOnly st.data_sources d2 := by
        have h0 := metaOnly_foldl_entries st.data_sources bucket F1
          (d1, evs1) hm1
        rw [hP2] at h0
        exact h0
      obtain ⟨ps2, hps2l, hps2s, hps2o⟩ :=
        metaOnly_flags st.data_sources d2 psId ps hm2 hpsl
      obtain ⟨A1, A2, hA⟩ := psEventsFor_decompose d2 f.rename_pids f.pids
        bucket psId ps2 hps hps2l (hps2s.trans hpss) (hps2o.trans hpso)
        hrn hpn
      obtain ⟨ino2, hino2l, hino2s, _⟩ :=
        metaOnly_flags st.data_sources d2 inoId ino hm2 hinol
      have hmemino := inoEventsFor_mem d2 f.inode_and_device bucket inoId
        ino2 hino hino2l (hino2s.trans hinos)
      rw [processFtraceEntry_hit_ft bucket d2 evs2 fid f hl2 hfs]
      rw [foldl_entries_events bucket F2]
      cases hB : List.foldl (processFtraceEntry bucket)
          (aset d2 fid (clearMetadata f), []) F2 with
      | mk d3 evs3 =>
        dsimp only
        rw [foldl_sessions_events S2]
        cases hC : List.foldl processSession (d3, ([] : List Event)) S2 with
        | mk d4 evs4 =>
          dsimp only
          have hl3 : alookup d3 fid = some (clearMetadata f) := by
            have h0 := foldl_entries_lookup_ne bucket fid F2 hneF2
              (aset d2 fid (clearMetadata f), [])
            rw [hB] at h0
            exact h0.trans (alookup_aset_self d2 fid (clearMetadata f))
          have hl4 : alookup d4 fid = some (clearMetadata f) := by
            have h0 := foldl_sessions_lookup_ne fid S2 hneS2 (d3, [])
            rw [hC] at h0
            exact h0.trans hl3
          refine ⟨⟨evs2 ++ A1,
            A2 ++ (inoEventsFor d2 f.inode_and_device bucket ++
              (evs3 ++ evs4)), ?_⟩, ?_, hl4⟩
          · rw [hA]
            simp [List.append_assoc]
          · simp only [List.mem_append]
            tauto

/-- C7 witness: the broadcast guarantee on the spec's concrete scenario
of session 3 — ftrace source 1 with `rename_pids = {100}`,
`pids = {100, 101}`, `inode_and_device = {(9, 42)}`, started
process-stats source 2 with on-demand dumps, started inode-file
source 3. -/
theorem ftrace_metadata_broadcast_witness :
    ((3, [(FtraceDescriptor.key, 1), (ProcessStatsDescriptor.key, 2),
        (InodeFileDescriptor.key, 3)]) ∈ c7DemoState.session_data_sources ∧
      (allFtraceRefs c7DemoState.session_data_sources).count 1 = 1 ∧
      alookup c7DemoState.data_sources 1 = some c7Ftrace ∧
      alookup c7DemoState.data_sources 2 = some c7ProcessStats ∧
      alookup c7DemoState.data_sources 3 = some c7InodeFile ∧
      c7Ftrace.rename_pids ≠ [] ∧ c7Ftrace.pids ≠ []) ∧
    ((∃ l1 l2, (onFtraceDataWrittenIntoDataSourceBuffers c7DemoState).2 =
        l1 ++ (Event.onRenamePids 2 c7Ftrace.rename_pids ::
          Event.onPids 2 c7Ftrace.pids :: l2)) ∧
      Event.onInodes 3 c7Ftrace.inode_and_device ∈
        (onFtraceDataWrittenIntoDataSourceBuffers c7DemoState).2 ∧
      alookup
          (onFtraceDataWrittenIntoDataSourceBuffers c7DemoState).1.data_sources
          1 = some (clearMetadata c7Ftrace)) :=
  ⟨⟨by decide, by decide, by decide, by decide, by decide, by decide,
      by decide⟩,
    ftrace_metadata_broadcast c7DemoState 3
      [(FtraceDescriptor.key, 1), (ProcessStatsDescriptor.key, 2),
        (InodeFileDescriptor.key, 3)] 1 2 3 c7Ftrace c7ProcessStats c7InodeFile
      (by decide) (by decide) (by decide) (by decide) (by decide) (by decide)
      (by decide) (by decide) (by decide) (by decide) (by decide) (by decide)
      (by decide) (by decide)⟩
